import Mathlib

/-!
# UrbanMD client scripts: shallow embedding and verified properties

Sources embedded here: `static/js/base.js` (class `UrbanMD`) and
`static/js/pages/home.js` (class `HomePage`).

Modelling conventions.

* A handler is a function from the state it reads (the `World`, the DOM pieces
  it touches, the answers of the environment: dialog answers and the outcome of
  its one request) to the state it leaves. An `async` handler is run to
  completion for a given outcome of its request; no other handler interleaves.
* `World.trace` records, in program order, the calls a handler makes to the
  platform (fetch, console, dialogs, navigation) and the notifications it
  appends to the document.
* A `World` describes one document. An assignment to `window.location.href` and
  a call of `window.location.reload()` are recorded in the trace, and they
  replace the document: the handler that makes the call runs to its end, and as
  soon as time passes the notifications and the pending timers of the document
  are gone with it. The time the browser takes to fetch the next document is
  taken to be zero; the next document is not described.
* Timers fire exactly when due (an idealised event loop); timers due at the same
  instant fire in registration order.
* The document body exists (both classes are constructed on DOMContentLoaded).
* The elements a handler touches (a form, the search panels, a task row, the
  patient queue with the action elements of the page, the nodes tagged with a
  statistic) are passed in and returned. The listeners registered on one element
  run one after the other, each to completion.
* `document.cookie` is read as a list of characters; `split`, `trim` and
  `decodeURIComponent` are defined on such lists.
* The number animation runs over exact rationals.
-/

namespace Hospivus

/-! ## JavaScript values -/

/-- A JavaScript value as the scripts meet it: `undefined` or a parsed JSON value. -/
inductive JsVal where
  | undefined
  | null
  | bool (b : Bool)
  | num (q : Rat)
  | str (s : String)
  | arr (items : List JsVal)
  | obj (props : List (String × JsVal))

/-- The exceptions a handler can meet. -/
inductive JsError where
  | typeError
  | networkError
  | parseError
  | uriError
  | selectorError
  deriving DecidableEq, Repr

/-- ToBoolean. -/
def truthy : JsVal → Bool
  | .undefined => false
  | .null => false
  | .bool b => b
  | .num q => decide (q ≠ 0)
  | .str s => decide (s ≠ "")
  | .arr _ => true
  | .obj _ => true

/-- The operator `a || b`. -/
def jsOr (a b : JsVal) : JsVal :=
  if truthy a then a else b

/-- Property read `v.key` for the keys the scripts read (`success`, `message`,
`redirect`, `count`, `html`, `stats`): a TypeError on `null` and `undefined`,
the own property of an object (its properties listed with distinct keys), and
`undefined` on every other value. -/
def getProp (v : JsVal) (key : String) : Except JsError JsVal :=
  match v with
  | .undefined => .error .typeError
  | .null => .error .typeError
  | .obj props => .ok ((props.lookup key).getD .undefined)
  | _ => .ok .undefined

/-- The value of `data.key` where the read does not raise. -/
def field (data : JsVal) (key : String) : JsVal :=
  match getProp data key with
  | .ok v => v
  | .error _ => .undefined

/-- A value read from `dataset` (a string, or `undefined` when the attribute is
absent) interpolated into a template literal. -/
def interp : Option String → String
  | some s => s
  | none => "undefined"

/-! ## The document, timers and the trace -/

/-- `classList.add(c)`. -/
def classAdd (cs : List String) (c : String) : List String :=
  if c ∈ cs then cs else cs ++ [c]

/-- `classList.add(...tokens)`. -/
def classAddAll (cs : List String) (tokens : List String) : List String :=
  tokens.foldl classAdd cs

/-- `classList.remove(c)`. -/
def classRemove (cs : List String) (c : String) : List String :=
  cs.filter (fun x => x != c)

/-- A notification element attached to the body. `message` is the value
interpolated into the fixed markup assigned to `innerHTML`. An element that has
been removed is no longer listed: nothing reads it again. -/
structure NotificationNode where
  id : Nat
  classList : List String
  message : JsVal

/-- The callbacks handed to `setTimeout`. -/
inductive TimerAction where
  | slideIn (node : Nat)
  | slideOut (node : Nat)
  | removeNode (node : Nat)
  | reload
  deriving DecidableEq, Repr

/-- A pending timer: the instant it is due and its callback. -/
structure Timer where
  due : Nat
  action : TimerAction
  deriving DecidableEq, Repr

/-- The body of a request. `json v` is `JSON.stringify(v)`. -/
inductive Body where
  | none
  | formData (fields : List (String × String))
  | json (v : JsVal)

/-- The arguments of one `fetch` call. `query` is the `URLSearchParams` appended
to `url`; `headers` hold the values as written in the source. -/
structure Request where
  url : String
  query : List (String × String)
  method : String
  headers : List (String × JsVal)
  body : Body

/-- The calls recorded in the trace. -/
inductive Effect where
  | fetch (r : Request)
  | notify (type : String) (message : JsVal)
  | navigate (target : JsVal)
  | reload
  | consoleError (label : String)
  | confirm (text : String)
  | prompt (text : String)
  | attachDoctorCardListeners

/-- The state shared by the handlers. -/
structure World where
  now : Nat
  csrfToken : JsVal
  body : List NotificationNode
  timers : List Timer
  trace : List Effect

/-- The outcome of running a piece of code: the state it leaves and whether it
completed or raised. -/
structure Run where
  world : World
  result : Except JsError Unit

/-- What the environment answers to `fetch(...)` followed by `response.json()`. -/
inductive FetchOutcome where
  | rejected
  | unparsable
  | json (data : JsVal)

/-- The error raised by an outcome that is not a parsed body. -/
def FetchOutcome.toExcept : FetchOutcome → Except JsError JsVal
  | .rejected => .error .networkError
  | .unparsable => .error .parseError
  | .json data => .ok data

/-- Append one effect to the trace. -/
def World.log (w : World) (e : Effect) : World :=
  { w with trace := w.trace ++ [e] }

/-! ## base.js: notifications -/

/-- The node a timer callback acts on. -/
def TimerAction.target : TimerAction → Option Nat
  | .slideIn n => some n
  | .slideOut n => some n
  | .removeNode n => some n
  | .reload => Option.none

/-- The element identities in use: attached nodes and nodes held by timers. -/
def usedIds (w : World) : List Nat :=
  w.body.map (fun n => n.id) ++ w.timers.filterMap (fun t => t.action.target)

/-- The identity of the element `document.createElement` returns: one not in use. -/
def freshId (w : World) : Nat :=
  (usedIds w).foldr (fun i acc => max (i + 1) acc) 0

/-- The tokens of the `className` assigned in `showNotification`. -/
def baseClasses : List String :=
  ["fixed", "top-4", "right-4", "p-4", "rounded-lg", "shadow-lg", "z-50", "max-w-sm",
   "transform", "transition-all", "duration-300", "translate-x-full"]

/-- The table `colors` of `showNotification`, each entry already split on blanks
(`colors[type].split(' ')`); `none` where `colors[type]` has no `split` to call. -/
def colors (type : String) : Option (List String) :=
  if type = "success" then some ["bg-green-500", "text-white"]
  else if type = "error" then some ["bg-red-500", "text-white"]
  else if type = "warning" then some ["bg-yellow-500", "text-white"]
  else if type = "info" then some ["bg-blue-500", "text-white"]
  else Option.none

/-- `setTimeout(callback, delay)`. -/
def World.setTimeout (w : World) (delay : Nat) (a : TimerAction) : World :=
  { w with timers := w.timers ++ [⟨w.now + delay, a⟩] }

/-- `document.body.appendChild(notification)`, recorded in the trace with the
arguments of the call that built the element. -/
def World.appendNotification (w : World) (node : NotificationNode) (type : String) : World :=
  { w with body := w.body ++ [node], trace := w.trace ++ [.notify type node.message] }

/-- `UrbanMD.showNotification(type, message)`. -/
def showNotification (w : World) (type : String) (message : JsVal) : Run :=
  match colors type with
  | Option.none => ⟨w, .error .typeError⟩
  | some cs =>
    let id := freshId w
    let node : NotificationNode :=
      { id := id, classList := classAddAll baseClasses cs, message := message }
    let w1 := w.appendNotification node type
    let w2 := w1.setTimeout 100 (.slideIn id)
    let w3 := w2.setTimeout 5000 (.slideOut id)
    ⟨w3, .ok ()⟩

/-- The close button of a notification: `this.parentElement.parentElement.remove()`. -/
def dismiss (w : World) (id : Nat) : World :=
  { w with body := w.body.filter (fun n => n.id != id) }

/-- Apply a change of class list to the node `id`, if it is attached. -/
def mapNode (body : List NotificationNode) (id : Nat) (f : List String → List String) :
    List NotificationNode :=
  body.map (fun n => if n.id = id then { n with classList := f n.classList } else n)

/-- Whether the document has been told to make way for another one:
`window.location.href` was assigned or `window.location.reload()` was called.
The targets the scripts assign are paths of other pages; the `redirect` of a
form response is read as one too. -/
def World.leaving (w : World) : Bool :=
  w.trace.any (fun e =>
    match e with
    | .navigate _ => true
    | .reload => true
    | _ => false)

/-- The browser replaces the document: its notifications and its pending timers
go with it. -/
def World.unload (w : World) : World :=
  { w with body := [], timers := [] }

/-- Run the callback of timer `t`, at the instant it is due (or now, when overdue).
The callback `() => window.location.reload()` replaces the document. -/
def fire (w : World) (t : Timer) : World :=
  let w1 : World := { w with now := max w.now t.due, timers := w.timers.erase t }
  match t.action with
  | .slideIn id =>
    { w1 with body := mapNode w1.body id (fun cs => classRemove cs "translate-x-full") }
  | .slideOut id =>
    World.setTimeout
      { w1 with body := mapNode w1.body id (fun cs => classAdd cs "translate-x-full") }
      300 (.removeNode id)
  | .removeNode id => { w1 with body := w1.body.filter (fun n => n.id != id) }
  | .reload => (w1.log .reload).unload

/-- The pending timer that fires next: the first registered among those due earliest. -/
def earliest : List Timer → Option Timer
  | [] => Option.none
  | t :: ts =>
    match earliest ts with
    | Option.none => some t
    | some u => if t.due ≤ u.due then some t else some u

/-- Fire, in order, the timers due at or before `T`; at most `fuel` of them. -/
def runTimers : Nat → Nat → World → World
  | 0, _, w => w
  | fuel + 1, T, w =>
    match earliest w.timers with
    | Option.none => w
    | some t => if t.due ≤ T then runTimers fuel T (fire w t) else w

/-- Let time pass until `T` with no user input. A document that was told to leave
is replaced before any of its timers fires. A pending timer fires at most once
and schedules at most one further timer, so twice the number of pending timers
bounds the number of firings. -/
def advance (T : Nat) (w : World) : World :=
  let w0 := if w.leaving then w.unload else w
  let w1 := runTimers (2 * w0.timers.length) T w0
  { w1 with now := max w1.now T }

/-- The lifecycle states of a notification entry. -/
inductive Visibility where
  | entering
  | visible
  | exiting
  | removed
  deriving DecidableEq, Repr

/-- Whether the auto-exit timer of node `id` is still pending. -/
def exitPending (w : World) (id : Nat) : Bool :=
  w.timers.any (fun t => decide (t.action = .slideOut id))

/-- The attached node with identity `id`, if any. -/
def findNode (w : World) (id : Nat) : Option NotificationNode :=
  w.body.find? (fun n => n.id == id)

/-- The lifecycle state of node `id`: removed when detached, visible when slid
in, otherwise off screen on its way in (auto-exit still pending) or out. -/
def visibility (w : World) (id : Nat) : Visibility :=
  match findNode w id with
  | Option.none => .removed
  | some n =>
    if "translate-x-full" ∈ n.classList then
      if exitPending w id then .entering else .exiting
    else .visible

/-- Consecutive calls of `showNotification`, stopping at the first that raises. -/
def showAll (w : World) : List (String × JsVal) → Run
  | [] => ⟨w, .ok ()⟩
  | (type, message) :: rest =>
    let r := showNotification w type message
    match r.result with
    | .error e => ⟨r.world, .error e⟩
    | .ok _ => showAll r.world rest

/-! ## base.js: the AJAX form handler -/

/-- The submit control of a form. -/
structure SubmitControl where
  disabled : Bool
  textContent : String
  deriving DecidableEq, Repr

/-- A form flagged `data-ajax`: what `handleAjaxForm` reads and writes. -/
structure Form where
  action : String
  method : String
  fields : List (String × String)
  submitBtn : Option SubmitControl

/-- The request `handleAjaxForm` builds. -/
def ajaxRequest (w : World) (form : Form) : Request :=
  { url := form.action
    query := []
    method := if form.method ≠ "" then form.method else "POST"
    headers := [("X-CSRFToken", w.csrfToken), ("X-Requested-With", .str "XMLHttpRequest")]
    body := .formData form.fields }

/-- The part of the `try` block of `handleAjaxForm` that follows
`const data = await response.json()`. -/
def ajaxHandleData (w : World) (data : JsVal) : Run :=
  match getProp data "success" with
  | .error e => ⟨w, .error e⟩
  | .ok success =>
    if truthy success then
      match getProp data "message" with
      | .error e => ⟨w, .error e⟩
      | .ok message =>
        let r := showNotification w "success" (jsOr message (.str "Operation successful"))
        match r.result with
        | .error e => ⟨r.world, .error e⟩
        | .ok _ =>
          match getProp data "redirect" with
          | .error e => ⟨r.world, .error e⟩
          | .ok redirect =>
            if truthy redirect then ⟨r.world.log (.navigate redirect), .ok ()⟩
            else ⟨r.world, .ok ()⟩
    else
      match getProp data "message" with
      | .error e => ⟨w, .error e⟩
      | .ok message => showNotification w "error" (jsOr message (.str "An error occurred"))

/-- The `try` block of `handleAjaxForm` after the submit control is disabled. -/
def ajaxTry (w : World) (form : Form) (o : FetchOutcome) : Run :=
  let w1 := w.log (.fetch (ajaxRequest w form))
  match o.toExcept with
  | .error e => ⟨w1, .error e⟩
  | .ok data => ajaxHandleData w1 data

/-- The `catch` block of `handleAjaxForm`. -/
def ajaxCatch (r : Run) : Run :=
  match r.result with
  | .ok _ => r
  | .error _ =>
    showNotification (r.world.log (.consoleError "Form submission error:")) "error"
      (.str "An unexpected error occurred")

/-- The writes `submitBtn.disabled = d; submitBtn.textContent = t`, skipped when
the form has no submit control. -/
def Form.setSubmit (form : Form) (d : Bool) (t : String) : Form :=
  match form.submitBtn with
  | some _ => { form with submitBtn := some ⟨d, t⟩ }
  | Option.none => form

/-- `UrbanMD.handleAjaxForm(form)`: the world and the form it leaves, and whether
the returned promise is fulfilled or rejected. -/
def handleAjaxForm (w : World) (form : Form) (o : FetchOutcome) : Run × Form :=
  let originalText := match form.submitBtn with
    | some b => b.textContent
    | Option.none => ""
  let pending := form.setSubmit true "Loading..."
  let r := ajaxCatch (ajaxTry w pending o)
  (r, pending.setSubmit false originalText)

/-! ## home.js: the fetch-issuing dashboard actions -/

/-- The `catch` blocks of home.js that log and notify:
`console.error(label, error); window.urbanMD.showNotification('error', text)`. -/
def catchNotify (r : Run) (label text : String) : Run :=
  match r.result with
  | .ok _ => r
  | .error _ => showNotification (r.world.log (.consoleError label)) "error" (.str text)

/-- The options of the POST requests of the dashboard actions. -/
def postRequest (w : World) (url : String) (body : Body) : Request :=
  { url := url
    query := []
    method := "POST"
    headers := [("X-CSRFToken", w.csrfToken), ("Content-Type", .str "application/json")]
    body := body }

/-- The `try` block of `cancelAppointment`. -/
def cancelTry (w : World) (appointmentId : Option String) (o : FetchOutcome) : Run :=
  let w1 := w.log (.fetch (postRequest w
    ("/api/appointments/cancel/" ++ interp appointmentId ++ "/") .none))
  match o.toExcept with
  | .error e => ⟨w1, .error e⟩
  | .ok data =>
    match getProp data "success" with
    | .error e => ⟨w1, .error e⟩
    | .ok success =>
      if truthy success then
        let r := showNotification w1 "success" (.str "Appointment cancelled successfully")
        match r.result with
        | .error e => ⟨r.world, .error e⟩
        | .ok _ => ⟨r.world.setTimeout 1500 .reload, .ok ()⟩
      else
        match getProp data "message" with
        | .error e => ⟨w1, .error e⟩
        | .ok message =>
          showNotification w1 "error" (jsOr message (.str "Failed to cancel appointment"))

/-- `HomePage.cancelAppointment(appointmentId)`; `confirmed` is the answer of the
confirmation dialog. -/
def cancelAppointment (w : World) (appointmentId : Option String) (confirmed : Bool)
    (o : FetchOutcome) : Run :=
  let w0 := w.log (.confirm "Are you sure you want to cancel this appointment?")
  if !confirmed then ⟨w0, .ok ()⟩
  else
    catchNotify (cancelTry w0 appointmentId o) "Error cancelling appointment:"
      "An error occurred while cancelling the appointment"

/-- The `try` block of `startAppointment`. -/
def startTry (w : World) (appointmentId : Option String) (o : FetchOutcome) : Run :=
  let w1 := w.log (.fetch (postRequest w
    ("/api/appointments/start/" ++ interp appointmentId ++ "/") .none))
  match o.toExcept with
  | .error e => ⟨w1, .error e⟩
  | .ok data =>
    match getProp data "success" with
    | .error e => ⟨w1, .error e⟩
    | .ok success =>
      if truthy success then
        let r := showNotification w1 "success" (.str "Appointment started")
        match r.result with
        | .error e => ⟨r.world, .error e⟩
        | .ok _ =>
          ⟨r.world.log (.navigate (.str
            ("/appointments/session/" ++ interp appointmentId ++ "/"))), .ok ()⟩
      else ⟨w1, .ok ()⟩

/-- `HomePage.startAppointment(appointmentId)`. -/
def startAppointment (w : World) (appointmentId : Option String) (o : FetchOutcome) : Run :=
  catchNotify (startTry w appointmentId o) "Error starting appointment:"
    "Failed to start appointment"

/-- The `try` block shared, up to its strings, by `suspendUser`, `activateUser`,
`approveVerification` and `rejectVerification`: one POST, then on a truthy
`success` a success notification and a reload after 1500 ms; nothing else. -/
def postThenReloadTry (w : World) (url : String) (body : Body) (done : String)
    (o : FetchOutcome) : Run :=
  let w1 := w.log (.fetch (postRequest w url body))
  match o.toExcept with
  | .error e => ⟨w1, .error e⟩
  | .ok data =>
    match getProp data "success" with
    | .error e => ⟨w1, .error e⟩
    | .ok success =>
      if truthy success then
        let r := showNotification w1 "success" (.str done)
        match r.result with
        | .error e => ⟨r.world, .error e⟩
        | .ok _ => ⟨r.world.setTimeout 1500 .reload, .ok ()⟩
      else ⟨w1, .ok ()⟩

/-- `HomePage.suspendUser(userId)`; `confirmed` is the answer of the confirmation
dialog. -/
def suspendUser (w : World) (userId : Option String) (confirmed : Bool)
    (o : FetchOutcome) : Run :=
  let w0 := w.log (.confirm "Are you sure you want to suspend this user?")
  if !confirmed then ⟨w0, .ok ()⟩
  else
    catchNotify
      (postThenReloadTry w0 ("/api/admin/users/" ++ interp userId ++ "/suspend/") .none
        "User suspended successfully" o)
      "Error suspending user:" "Failed to suspend user"

/-- `HomePage.activateUser(userId)`. -/
def activateUser (w : World) (userId : Option String) (o : FetchOutcome) : Run :=
  catchNotify
    (postThenReloadTry w ("/api/admin/users/" ++ interp userId ++ "/activate/") .none
      "User activated successfully" o)
    "Error activating user:" "Failed to activate user"

/-- `HomePage.approveVerification(type, id)`. -/
def approveVerification (w : World) (type id : Option String) (o : FetchOutcome) : Run :=
  catchNotify
    (postThenReloadTry w
      ("/api/admin/verify/" ++ interp type ++ "/" ++ interp id ++ "/approve/") .none
      "Verification approved" o)
    "Error approving verification:" "Failed to approve verification"

/-- `HomePage.rejectVerification(type, id)`; `reason` is what `prompt` returns:
the text entered, or `null` (here `none`) when the dialog is cancelled. -/
def rejectVerification (w : World) (type id : Option String) (reason : Option String)
    (o : FetchOutcome) : Run :=
  let w0 := w.log (.prompt "Please provide a reason for rejection:")
  match reason with
  | Option.none => ⟨w0, .ok ()⟩
  | some r =>
    if r = "" then ⟨w0, .ok ()⟩
    else
      catchNotify
        (postThenReloadTry w0
          ("/api/admin/verify/" ++ interp type ++ "/" ++ interp id ++ "/reject/")
          (.json (.obj [("reason", .str r)])) "Verification rejected" o)
        "Error rejecting verification:" "Failed to reject verification"

/-! ## home.js: doctor search -/

/-- ToNumber of a string, for the spellings a count can have: blank is 0, an
optionally signed run of decimal digits is its value, and anything else is NaN
(`none`). -/
def strToNumber (s : String) : Option Rat :=
  let t := s.trim
  if t = "" then some 0
  else if t.front = '+' then (t.drop 1).toNat?.map (fun n => (n : Rat))
  else t.toInt?.map (fun i => (i : Rat))

/-- ToNumber; `none` is NaN. An array converts through its string form: empty is
0, a single element converts as that element does (blank for `null` and
`undefined`), and several elements give a text with a comma, hence NaN. -/
def toNumber : JsVal → Option Rat
  | .undefined => Option.none
  | .null => some 0
  | .bool b => some (if b then 1 else 0)
  | .num q => some q
  | .str s => strToNumber s
  | .obj _ => Option.none
  | .arr [] => some 0
  | .arr [.undefined] => some 0
  | .arr [.null] => some 0
  | .arr [.num q] => some q
  | .arr [.str s] => strToNumber s
  | .arr [.arr ys] => toNumber (.arr ys)
  | .arr _ => Option.none

/-- The comparison `v > q` against a number. -/
def jsGt (v : JsVal) (q : Rat) : Bool :=
  match toNumber v with
  | some x => decide (q < x)
  | Option.none => false

/-- The elements of the doctor-search modal that the submit handler touches:
the class lists of the five panels, and the last values assigned to
`searchResults.innerHTML` and `resultsCount.textContent`. -/
structure SearchDom where
  modal : List String
  loadingState : List String
  searchResults : List String
  noResults : List String
  resultsSummary : List String
  searchResultsHtml : JsVal
  resultsCountText : JsVal

/-- The outcome of a piece of the search handler: the world, the panels, and
whether it completed or raised. -/
structure SearchRun where
  world : World
  dom : SearchDom
  result : Except JsError Unit

/-- The request of the doctor search: the non-empty form fields as query. -/
def searchRequest (w : World) (formData : List (String × String)) : Request :=
  { url := "/api/core/doctors/search/?"
    query := formData.filter (fun kv => kv.2 != "")
    method := "GET"
    headers := [("X-Requested-With", .str "XMLHttpRequest"), ("X-CSRFToken", w.csrfToken)]
    body := .none }

/-- The `try` block of the submit handler of `initDoctorSearch`. -/
def searchTry (w : World) (dom : SearchDom) (formData : List (String × String))
    (o : FetchOutcome) : SearchRun :=
  let w1 := w.log (.fetch (searchRequest w formData))
  match o.toExcept with
  | .error e => ⟨w1, dom, .error e⟩
  | .ok data =>
    let dom1 := { dom with loadingState := classAdd dom.loadingState "hidden" }
    match getProp data "success" with
    | .error e => ⟨w1, dom1, .error e⟩
    | .ok success =>
      match (if truthy success then (getProp data "count").map (fun c => jsGt c 0)
             else .ok false) with
      | .error e => ⟨w1, dom1, .error e⟩
      | .ok false =>
        ⟨w1, { dom1 with noResults := classRemove dom1.noResults "hidden" }, .ok ()⟩
      | .ok true =>
        match getProp data "html", getProp data "count" with
        | .ok html, .ok count =>
          ⟨w1.log .attachDoctorCardListeners,
           { dom1 with
              searchResultsHtml := html
              resultsCountText := count
              resultsSummary := classRemove dom1.resultsSummary "hidden"
              searchResults := classRemove dom1.searchResults "hidden" },
           .ok ()⟩
        | .error e, _ => ⟨w1, dom1, .error e⟩
        | _, .error e => ⟨w1, dom1, .error e⟩

/-- The submit handler registered by `HomePage.initDoctorSearch`. -/
def doctorSearchSubmit (w : World) (dom : SearchDom) (formData : List (String × String))
    (o : FetchOutcome) : SearchRun :=
  let shown : SearchDom :=
    { dom with
        modal := classRemove dom.modal "hidden"
        loadingState := classRemove dom.loadingState "hidden"
        searchResults := classAdd dom.searchResults "hidden"
        noResults := classAdd dom.noResults "hidden"
        resultsSummary := classAdd dom.resultsSummary "hidden" }
  let r := searchTry w shown formData o
  match r.result with
  | .ok _ => r
  | .error _ =>
    let d := r.dom
    let caught : SearchDom :=
      { d with
          loadingState := classAdd d.loadingState "hidden"
          noResults := classRemove d.noResults "hidden" }
    let n := showNotification (r.world.log (.consoleError "Error searching doctors:")) "error"
      (.str "Failed to search doctors. Please try again.")
    ⟨n.world, caught, n.result⟩

/-- A panel is shown when its class list lacks `hidden`. -/
def shown (classList : List String) : Bool :=
  !classList.contains "hidden"

/-! ## home.js: task checkboxes -/

/-- The `catch` blocks of home.js that only log: `console.error(label, error)`. -/
def catchLog (r : Run) (label : String) : Run :=
  match r.result with
  | .ok _ => r
  | .error _ => ⟨r.world.log (.consoleError label), .ok ()⟩

/-- The `try` block of `updateTaskStatus`. -/
def updateTaskTry (w : World) (taskId status : String) (o : FetchOutcome) : Run :=
  let w1 := w.log (.fetch
    { url := "/api/core/update-task/"
      query := []
      method := "POST"
      headers := [("Content-Type", .str "application/json"), ("X-CSRFToken", w.csrfToken)]
      body := .json (.obj [("taskId", .str taskId), ("status", .str status)]) })
  match o.toExcept with
  | .error e => ⟨w1, .error e⟩
  | .ok data =>
    match getProp data "success" with
    | .error e => ⟨w1, .error e⟩
    | .ok success =>
      if truthy success then ⟨w1, .ok ()⟩
      else ⟨w1.log (.consoleError "Failed to update task status"), .ok ()⟩

/-- `HomePage.updateTaskStatus(taskId, status)`: nothing at all when `taskId` is
falsy (absent or empty). -/
def updateTaskStatus (w : World) (taskId : Option String) (status : String)
    (o : FetchOutcome) : Run :=
  match taskId with
  | Option.none => ⟨w, .ok ()⟩
  | some id =>
    if id = "" then ⟨w, .ok ()⟩
    else catchLog (updateTaskTry w id status o) "Error updating task:"

/-- A task checkbox with the label that follows it. -/
structure TaskRow where
  checked : Bool
  taskId : Option String
  labelClasses : List String

/-- The `change` listener registered by `initTaskCheckboxes`; `row.checked` is
the state of the checkbox after the change. -/
def taskCheckboxChange (w : World) (row : TaskRow) (o : FetchOutcome) : Run × TaskRow :=
  if row.checked then
    let added := classAddAll row.labelClasses
      ["text-gray-400", "dark:text-gray-500", "line-through"]
    let cleared := classRemove (classRemove added "text-gray-700") "dark:text-gray-300"
    (updateTaskStatus w row.taskId "completed" o, { row with labelClasses := cleared })
  else
    let cleared := classRemove (classRemove (classRemove row.labelClasses "text-gray-400")
      "dark:text-gray-500") "line-through"
    let added := classAddAll cleared ["text-gray-700", "dark:text-gray-300"]
    (updateTaskStatus w row.taskId "pending" o, { row with labelClasses := added })

/-! ## home.js: the click listeners of the dashboard sections -/

/-- The assignment `window.location.href = url`. -/
def navigateTo (w : World) (url : String) : Run :=
  ⟨w.log (.navigate (.str url)), .ok ()⟩

/-- `HomePage.startVideoCall(appointmentId)`. -/
def startVideoCall (w : World) (appointmentId : Option String) : Run :=
  navigateTo w ("/appointments/video/" ++ interp appointmentId ++ "/")

/-- `HomePage.rescheduleAppointment(appointmentId)`. -/
def rescheduleAppointment (w : World) (appointmentId : Option String) : Run :=
  navigateTo w ("/appointments/reschedule/" ++ interp appointmentId ++ "/")

/-- `HomePage.viewAppointmentDetails(appointmentId)`. -/
def viewAppointmentDetails (w : World) (appointmentId : Option String) : Run :=
  navigateTo w ("/appointments/details/" ++ interp appointmentId ++ "/")

/-- `HomePage.completeAppointment(appointmentId)`. -/
def completeAppointment (w : World) (appointmentId : Option String) : Run :=
  navigateTo w ("/appointments/complete/" ++ interp appointmentId ++ "/")

/-- `HomePage.openAppointmentNotes(appointmentId)`. -/
def openAppointmentNotes (w : World) (appointmentId : Option String) : Run :=
  navigateTo w ("/appointments/notes/" ++ interp appointmentId ++ "/")

/-- `HomePage.viewVerificationDetails(type, id)`. -/
def viewVerificationDetails (w : World) (type id : Option String) : Run :=
  navigateTo w ("/admin/verify/" ++ interp type ++ "/" ++ interp id ++ "/")

/-- The click listener of `initAppointmentActions`: `action` and `appointmentId`
are the values of `btn.dataset`. -/
def appointmentActionClick (w : World) (action appointmentId : Option String)
    (confirmed : Bool) (o : FetchOutcome) : Run :=
  if action = some "video" then startVideoCall w appointmentId
  else if action = some "reschedule" then rescheduleAppointment w appointmentId
  else if action = some "cancel" then cancelAppointment w appointmentId confirmed o
  else if action = some "view" then viewAppointmentDetails w appointmentId
  else ⟨w, .ok ()⟩

/-- The click listener of `initAppointmentCalendar`. -/
def providerAppointmentClick (w : World) (action appointmentId : Option String)
    (o : FetchOutcome) : Run :=
  if action = some "start" then startAppointment w appointmentId o
  else if action = some "complete" then completeAppointment w appointmentId
  else if action = some "notes" then openAppointmentNotes w appointmentId
  else ⟨w, .ok ()⟩

/-- The click listener of `initQuickActions`. -/
def quickActionClick (w : World) (action : Option String) : Run :=
  if action = some "new-patient" then navigateTo w "/patients/new/"
  else if action = some "prescriptions" then navigateTo w "/prescriptions/"
  else if action = some "lab-results" then navigateTo w "/lab-results/"
  else if action = some "messages" then navigateTo w "/messages/"
  else ⟨w, .ok ()⟩

/-- The click listener of `initProviderManagement`. -/
def providerActionClick (w : World) (action providerId : Option String) : Run :=
  if action = some "view" then navigateTo w ("/providers/" ++ interp providerId ++ "/")
  else if action = some "edit" then
    navigateTo w ("/providers/" ++ interp providerId ++ "/edit/")
  else if action = some "schedule" then
    navigateTo w ("/providers/" ++ interp providerId ++ "/schedule/")
  else ⟨w, .ok ()⟩

/-- The click listener of `initLocationManagement`. -/
def locationActionClick (w : World) (action locationId : Option String) : Run :=
  if action = some "view" then navigateTo w ("/locations/" ++ interp locationId ++ "/")
  else if action = some "edit" then
    navigateTo w ("/locations/" ++ interp locationId ++ "/edit/")
  else if action = some "analytics" then
    navigateTo w ("/locations/" ++ interp locationId ++ "/analytics/")
  else ⟨w, .ok ()⟩

/-- The click listener of `initUserManagement`. -/
def userActionClick (w : World) (action userId : Option String) (confirmed : Bool)
    (o : FetchOutcome) : Run :=
  if action = some "view" then navigateTo w ("/admin/users/" ++ interp userId ++ "/")
  else if action = some "suspend" then suspendUser w userId confirmed o
  else if action = some "activate" then activateUser w userId o
  else ⟨w, .ok ()⟩

/-- The click listener of `initVerificationQueue`. -/
def verificationActionClick (w : World) (action type id : Option String)
    (reason : Option String) (o : FetchOutcome) : Run :=
  if action = some "approve" then approveVerification w type id o
  else if action = some "reject" then rejectVerification w type id reason o
  else if action = some "view" then viewVerificationDetails w type id
  else ⟨w, .ok ()⟩

/-- The dashboard sections whose elements carry an action name. -/
inductive DashboardSection where
  | patientAppointments
  | providerAppointments
  | quickActions
  | providerManagement
  | locationManagement
  | userManagement
  | verificationQueue
  deriving DecidableEq, Repr

/-- What one click meets: the attributes of the element and the answers of the
environment (dialogs, request). -/
structure ClickInput where
  action : Option String
  id : Option String
  type : Option String
  confirmed : Bool
  reason : Option String
  outcome : FetchOutcome

/-- One click on an action element of a section, handled by the listener that
section registers. -/
def clickAction (w : World) (s : DashboardSection) (c : ClickInput) : Run :=
  match s with
  | .patientAppointments => appointmentActionClick w c.action c.id c.confirmed c.outcome
  | .providerAppointments => providerAppointmentClick w c.action c.id c.outcome
  | .quickActions => quickActionClick w c.action
  | .providerManagement => providerActionClick w c.action c.id
  | .locationManagement => locationActionClick w c.action c.id
  | .userManagement => userActionClick w c.action c.id c.confirmed c.outcome
  | .verificationQueue => verificationActionClick w c.action c.type c.id c.reason c.outcome

/-! ## home.js: the patient queue -/

/-- An element of class `provider-appointment-action`: whether it lies inside
the `.patient-queue` element, its `dataset`, and how many click listeners
`initAppointmentCalendar` has registered on it. -/
structure ActionElement where
  inQueue : Bool
  action : Option String
  appointmentId : Option String
  listeners : Nat
  deriving DecidableEq, Repr

/-- The part of the provider page the queue refresh touches: the content last
assigned to the `.patient-queue` element (`none` when the page has no such
element) and the `provider-appointment-action` elements of the document. -/
structure ProviderPage where
  queue : Option JsVal
  actions : List ActionElement

/-- `HomePage.initAppointmentCalendar()`: one more click listener on every
`provider-appointment-action` element of the document. -/
def initAppointmentCalendar (p : ProviderPage) : ProviderPage :=
  { p with actions := p.actions.map (fun e => { e with listeners := e.listeners + 1 }) }

/-- The assignment `queueElement.innerHTML = html`: the elements that were inside
the queue are gone, and the action elements `fragment` the markup describes (the
`dataset` of each) take their place, with no listener yet. -/
def replaceQueue (p : ProviderPage) (html : JsVal)
    (fragment : List (Option String × Option String)) : ProviderPage :=
  { queue := some html
    actions := p.actions.filter (fun e => !e.inQueue) ++
      fragment.map (fun d => ⟨true, d.1, d.2, 0⟩) }

/-- The `try` block of `refreshPatientQueue`. -/
def refreshQueueTry (w : World) (p : ProviderPage)
    (fragment : List (Option String × Option String)) (o : FetchOutcome) :
    Run × ProviderPage :=
  let w1 := w.log (.fetch
    { url := "/api/appointments/queue/"
      query := []
      method := "GET"
      headers := [("X-CSRFToken", w.csrfToken), ("X-Requested-With", .str "XMLHttpRequest")]
      body := .none })
  match o.toExcept with
  | .error e => (⟨w1, .error e⟩, p)
  | .ok data =>
    match getProp data "success" with
    | .error e => (⟨w1, .error e⟩, p)
    | .ok success =>
      if truthy success && truthy (field data "html") then
        match p.queue with
        | some _ => (⟨w1, .ok ()⟩, initAppointmentCalendar (replaceQueue p (field data "html") fragment))
        | Option.none => (⟨w1, .ok ()⟩, p)
      else (⟨w1, .ok ()⟩, p)

/-- `HomePage.refreshPatientQueue()`; `fragment` lists the action elements of
the markup the response carries. -/
def refreshPatientQueue (w : World) (p : ProviderPage)
    (fragment : List (Option String × Option String)) (o : FetchOutcome) :
    Run × ProviderPage :=
  let r := refreshQueueTry w p fragment o
  (catchLog r.1 "Error refreshing patient queue:", r.2)

/-- Consecutive queue refreshes, each answered by the same response. -/
def refreshTimes (fragment : List (Option String × Option String)) (o : FetchOutcome) :
    Nat → World → ProviderPage → World × ProviderPage
  | 0, w, p => (w, p)
  | n + 1, w, p =>
    let r := refreshPatientQueue w p fragment o
    refreshTimes fragment o n r.1.world r.2

/-- Run `n` registered copies of a listener, one after the other. -/
def runListeners (listener : World → Run) : Nat → World → World
  | 0, w => w
  | n + 1, w => runListeners listener n (listener w).world

/-- One click on a `provider-appointment-action` element: every listener
registered on it runs. -/
def clickActionElement (w : World) (e : ActionElement) (o : FetchOutcome) : World :=
  runListeners (fun v => providerAppointmentClick v e.action e.appointmentId o) e.listeners w

/-! ## home.js: statistics -/

/-- A node carrying the attribute `data-stat` (or `data-system-stat`): the value
of the attribute and the value last assigned to `textContent`. -/
structure StatNode where
  tag : String
  text : JsVal

/-- The keys for which the selector `[data-stat="key"]` selects the nodes whose
attribute equals the key: those free of the double quote, the backslash, line
breaks and NUL. -/
def plainKey (key : String) : Bool :=
  key.toList.all (fun c =>
    c.toNat != 34 && c.toNat != 92 && c.toNat != 10 && c.toNat != 12 && c.toNat != 13
      && c.toNat != 0)

/-- `document.querySelector(selector)` followed by `element.textContent = v` when
an element is found: only the first node in document order with that tag takes
the value. -/
def setFirstTagged : List StatNode → String → JsVal → List StatNode
  | [], _, _ => []
  | n :: ns, key, v =>
    if n.tag = key then { n with text := v } :: ns else n :: setFirstTagged ns key v

/-- `Object.keys(v)` paired with `v[key]` for each key, in enumeration order: a
TypeError on `null` and `undefined`, the own properties of an object, the
indices of an array or of a string, nothing for a number or a boolean. -/
def ownEntries : JsVal → Except JsError (List (String × JsVal))
  | .undefined => .error .typeError
  | .null => .error .typeError
  | .obj props => .ok (props.map (fun kv => (kv.1, (props.lookup kv.1).getD .undefined)))
  | .arr items => .ok (items.enum.map (fun ix => (toString ix.1, ix.2)))
  | .str s => .ok (s.toList.enum.map (fun ix => (toString ix.1, .str (String.singleton ix.2))))
  | _ => .ok []

/-- The loop `Object.keys(data.stats).forEach(...)`. Outside the plain keys the
selector no longer means the key (or is rejected); the model raises there. -/
def statsForEach : List (String × JsVal) → List StatNode → List StatNode × Except JsError Unit
  | [], nodes => (nodes, .ok ())
  | (key, v) :: rest, nodes =>
    if plainKey key then statsForEach rest (setFirstTagged nodes key v)
    else (nodes, .error .selectorError)

/-- The request of the two stats refreshes. -/
def statsRequest (w : World) (url : String) : Request :=
  { url := url
    query := []
    method := "GET"
    headers := [("X-CSRFToken", w.csrfToken), ("X-Requested-With", .str "XMLHttpRequest")]
    body := .none }

/-- The part the `try` blocks of `refreshOrganizationStats` and
`refreshSystemStats` share: the request and, on a truthy `success`, the loop
over `data.stats`. The boolean tells whether the `if` branch was taken. -/
def statsTry (w : World) (url : String) (nodes : List StatNode) (o : FetchOutcome) :
    Run × List StatNode × Bool :=
  let w1 := w.log (.fetch (statsRequest w url))
  match o.toExcept with
  | .error e => (⟨w1, .error e⟩, nodes, false)
  | .ok data =>
    match getProp data "success" with
    | .error e => (⟨w1, .error e⟩, nodes, false)
    | .ok success =>
      if truthy success then
        match ownEntries (field data "stats") with
        | .error e => (⟨w1, .error e⟩, nodes, true)
        | .ok entries =>
          let r := statsForEach entries nodes
          (⟨w1, r.2⟩, r.1, true)
      else (⟨w1, .ok ()⟩, nodes, false)

/-- `HomePage.refreshOrganizationStats()`, on the nodes tagged `data-stat`. -/
def refreshOrganizationStats (w : World) (nodes : List StatNode) (o : FetchOutcome) :
    Run × List StatNode :=
  let r := statsTry w "/api/organization/stats/" nodes o
  let tried : Run :=
    match r.1.result with
    | .error e => ⟨r.1.world, .error e⟩
    | .ok _ =>
      if r.2.2 then showNotification r.1.world "success" (.str "Stats updated") else r.1
  (catchNotify tried "Error refreshing stats:" "Failed to refresh stats", r.2.1)

/-- `HomePage.refreshSystemStats()`, on the nodes tagged `data-system-stat`. -/
def refreshSystemStats (w : World) (nodes : List StatNode) (o : FetchOutcome) :
    Run × List StatNode :=
  let r := statsTry w "/api/admin/system-stats/" nodes o
  (catchLog r.1 "Error refreshing system stats:", r.2.1)

/-! ## home.js: the number animation of the health metrics -/

/-- The variables of one metric animation: `currentValue`, the values assigned
to `textContent` so far, and whether another frame has been requested. -/
structure MetricState where
  currentValue : Rat
  displayed : List Rat
  running : Bool

/-- One call of the closure `updateValue`. -/
def updateValue (finalValue increment : Rat) (st : MetricState) : MetricState :=
  let c := st.currentValue + increment
  if c < finalValue then
    { currentValue := c, displayed := st.displayed ++ [((Int.floor c : Int) : Rat)],
      running := true }
  else { currentValue := c, displayed := st.displayed ++ [finalValue], running := false }

/-- The calls of `updateValue` chained by `requestAnimationFrame`, at most
`frames` of them. -/
def animate (finalValue increment : Rat) : Nat → MetricState → MetricState
  | 0, st => st
  | n + 1, st =>
    let st1 := updateValue finalValue increment st
    if st1.running then animate finalValue increment n st1 else st1

/-- The animation `initHealthMetrics` starts on an element whose text parses to
`finalValue`, once the element is in view, over exact rationals. -/
def metricAnimation (finalValue : Rat) (frames : Nat) : MetricState :=
  animate finalValue (finalValue / (1000 / 16)) frames ⟨0, [], true⟩

/-! ## base.js: the CSRF token cookie -/

/-- The value of a hexadecimal digit. -/
def hexDigit (c : Char) : Option Nat :=
  if '0' ≤ c ∧ c ≤ '9' then some (c.toNat - 48)
  else if 'a' ≤ c ∧ c ≤ 'f' then some (c.toNat - 87)
  else if 'A' ≤ c ∧ c ≤ 'F' then some (c.toNat - 55)
  else Option.none

/-- A piece of an encoded URI component: a character standing for itself, or
the octet written by a percent escape. -/
inductive UriToken where
  | lit (c : Char)
  | octet (b : Nat)
  deriving DecidableEq, Repr

/-- Read the percent escapes; `none` where a `%` is not followed by two
hexadecimal digits. -/
def uriTokens : List Char → Option (List UriToken)
  | [] => some []
  | '%' :: h :: l :: rest =>
    match hexDigit h, hexDigit l with
    | some a, some b => (uriTokens rest).map (fun ts => .octet (16 * a + b) :: ts)
    | _, _ => Option.none
  | '%' :: _ => Option.none
  | c :: rest => (uriTokens rest).map (fun ts => .lit c :: ts)

/-- A continuation octet of UTF-8. -/
def isContinuation (b : Nat) : Bool :=
  decide (128 ≤ b) && decide (b < 192)

/-- Decode the octets as UTF-8, one token at a time; `need` continuation octets
are still expected for the scalar value whose leading bits are `acc` and which
must reach `low` (no overlong form). `none` where the octets are not the UTF-8
encoding of scalar values (stray or missing continuation, overlong form,
surrogate, value above U+10FFFF). -/
def utf8Go : Nat → Nat → Nat → List UriToken → Option (List Char)
  | need, _, _, [] => if need = 0 then some [] else Option.none
  | need, _, _, .lit c :: rest =>
    if need = 0 then (utf8Go 0 0 0 rest).map (fun cs => c :: cs) else Option.none
  | need, acc, low, .octet b :: rest =>
    if need = 0 then
      if b < 128 then (utf8Go 0 0 0 rest).map (fun cs => Char.ofNat b :: cs)
      else if 194 ≤ b ∧ b < 224 then utf8Go 1 (b - 192) 128 rest
      else if 224 ≤ b ∧ b < 240 then utf8Go 2 (b - 224) 2048 rest
      else if 240 ≤ b ∧ b < 245 then utf8Go 3 (b - 240) 65536 rest
      else Option.none
    else if isContinuation b then
      if need = 1 then
        if low ≤ acc * 64 + (b - 128) ∧ acc * 64 + (b - 128) < 1114112
            ∧ ¬ (55296 ≤ acc * 64 + (b - 128) ∧ acc * 64 + (b - 128) < 57344) then
          (utf8Go 0 0 0 rest).map (fun cs => Char.ofNat (acc * 64 + (b - 128)) :: cs)
        else Option.none
      else utf8Go (need - 1) (acc * 64 + (b - 128)) low rest
    else Option.none

/-- Decode the octets as UTF-8, from the start of a scalar value. -/
def utf8Decode (ts : List UriToken) : Option (List Char) :=
  utf8Go 0 0 0 ts

/-- The platform function `decodeURIComponent`: a URIError on a malformed escape. -/
def decodeURIComponent (s : String) : Except JsError String :=
  match (uriTokens s.toList).bind utf8Decode with
  | some cs => .ok (String.mk cs)
  | Option.none => .error .uriError

/-- The characters `String.prototype.trim` strips: white space and line
terminators. -/
def isJsSpace (c : Char) : Bool :=
  let n := c.toNat
  n == 9 || n == 10 || n == 11 || n == 12 || n == 13 || n == 32 || n == 160 || n == 5760
    || (decide (8192 ≤ n) && decide (n ≤ 8202)) || n == 8232 || n == 8233 || n == 8239
    || n == 8287 || n == 12288 || n == 65279

/-- `String.prototype.trim`, on the characters of the string. -/
def jsTrim (cs : List Char) : List Char :=
  ((cs.dropWhile isJsSpace).reverse.dropWhile isJsSpace).reverse

/-- `String.prototype.split(sep)` for a one-character separator. -/
def splitOnChar (sep : Char) : List Char → List (List Char)
  | [] => [[]]
  | c :: cs =>
    if c = sep then [] :: splitOnChar sep cs
    else
      match splitOnChar sep cs with
      | [] => [[c]]
      | piece :: pieces => (c :: piece) :: pieces

/-- The loop of `getCookie` over the pieces of `document.cookie`: the first piece
that, trimmed, starts with `name=` gives the value, decoded. -/
def findCookie (name : List Char) : List (List Char) → Except JsError JsVal
  | [] => .ok .null
  | piece :: rest =>
    let cookie := jsTrim piece
    if (name ++ ['=']).isPrefixOf cookie then
      (decodeURIComponent (String.mk (cookie.drop (name.length + 1)))).map .str
    else findCookie name rest

/-- `UrbanMD.getCookie(name)`, reading `document.cookie`. -/
def getCookie (documentCookie name : String) : Except JsError JsVal :=
  if documentCookie ≠ "" then
    findCookie name.toList (splitOnChar ';' documentCookie.toList)
  else .ok .null

/-- `UrbanMD.setupCSRFToken()`: `window.csrfToken` is written when the cookie
value is truthy. -/
def setupCSRFToken (w : World) (documentCookie : String) : Run :=
  match getCookie documentCookie "csrftoken" with
  | .error e => ⟨w, .error e⟩
  | .ok csrftoken =>
    if truthy csrftoken then ⟨{ w with csrfToken := csrftoken }, .ok ()⟩
    else ⟨w, .ok ()⟩

/-! ## Reading traces and responses -/

/-- The requests handed to `fetch`, in order. -/
def fetches : List Effect → List Request
  | [] => []
  | .fetch r :: es => r :: fetches es
  | _ :: es => fetches es

/-- The notifications appended to the document, in order: kind and message. -/
def notified : List Effect → List (String × JsVal)
  | [] => []
  | .notify type message :: es => (type, message) :: notified es
  | _ :: es => notified es

/-- The values assigned to `window.location.href`, in order. -/
def navigated : List Effect → List JsVal
  | [] => []
  | .navigate target :: es => target :: navigated es
  | _ :: es => navigated es

/-- The labels handed to `console.error`, in order. -/
def logged : List Effect → List String
  | [] => []
  | .consoleError label :: es => label :: logged es
  | _ :: es => logged es

/-- What a handler leaves when it catches an error: it completes, it logs with
`label`, and it appends the notifications `shown` and no other. -/
def CaughtAndLogged (w : World) (r : Run) (label : String) (shown : List (String × JsVal)) :
    Prop :=
  r.result = .ok () ∧ logged r.world.trace = logged w.trace ++ [label] ∧
    notified r.world.trace = notified w.trace ++ shown

/-- What a handler appended to the trace of the world it started from. -/
def effectsOf (w : World) (r : Run) : List Effect :=
  r.world.trace.drop w.trace.length

/-- The outcome navigate: something was assigned to `window.location.href`. -/
def navigates (es : List Effect) : Bool :=
  !(navigated es).isEmpty

/-- The outcome notify after a change: a notification of kind success. -/
def notifiesSuccess (es : List Effect) : Bool :=
  (notified es).any (fun n => n.1 == "success")

/-- The outcome notify-error: a notification of kind error. -/
def notifiesError (es : List Effect) : Bool :=
  (notified es).any (fun n => n.1 == "error")

/-- How many of the three outcomes navigate, notify after a change and
notify-error a list of effects shows. -/
def outcomeCount (es : List Effect) : Nat :=
  (navigates es).toNat + (notifiesSuccess es).toNat + (notifiesError es).toNat

/-- The actions the table of the spec gives a navigation and no request, and
the quick actions. -/
def navigateOnly : DashboardSection → Option String → Bool
  | .patientAppointments, a => a == some "video" || a == some "reschedule" || a == some "view"
  | .providerAppointments, a => a == some "complete" || a == some "notes"
  | .quickActions, a =>
    a == some "new-patient" || a == some "prescriptions" || a == some "lab-results"
      || a == some "messages"
  | .providerManagement, a => a == some "view" || a == some "edit" || a == some "schedule"
  | .locationManagement, a => a == some "view" || a == some "edit" || a == some "analytics"
  | .userManagement, a => a == some "view"
  | .verificationQueue, a => a == some "view"

/-- The actions the table of the spec gives a request. -/
def fetchAction : DashboardSection → Option String → Bool
  | .patientAppointments, a => a == some "cancel"
  | .providerAppointments, a => a == some "start"
  | .userManagement, a => a == some "suspend" || a == some "activate"
  | .verificationQueue, a => a == some "approve" || a == some "reject"
  | _, _ => false

/-- Whether the dialog of a request action lets it go on: the confirmation of
cancel and suspend accepted, the reason of reject given and not empty; the other
actions ask nothing. -/
def dialogAccepted (s : DashboardSection) (c : ClickInput) : Bool :=
  match s with
  | .patientAppointments => c.confirmed
  | .userManagement => if c.action == some "suspend" then c.confirmed else true
  | .verificationQueue =>
    if c.action == some "reject" then
      match c.reason with
      | some r => r != ""
      | Option.none => false
    else true
  | _ => true

/-- What one click appended to the trace. -/
def clickEffects (w : World) (s : DashboardSection) (c : ClickInput) : List Effect :=
  effectsOf w (clickAction w s c)

/-! ## Cookie strings as the claims describe them -/

/-- One `name=value` pair of a cookie string, with the number of spaces written
before and after it. -/
structure CookiePair where
  name : String
  value : String
  padLeft : Nat
  padRight : Nat

/-- The characters of one pair: spaces, the name, `=`, the value, spaces. -/
def CookiePair.render (p : CookiePair) : List Char :=
  List.replicate p.padLeft ' ' ++
    ((p.name.toList ++ '=' :: p.value.toList) ++ List.replicate p.padRight ' ')

/-- The characters of a cookie string: the pairs separated by `;`. -/
def renderCookieChars : List CookiePair → List Char
  | [] => []
  | [p] => p.render
  | p :: ps => p.render ++ ';' :: renderCookieChars ps

/-- The cookie string made of the given pairs. -/
def renderCookies (ps : List CookiePair) : String :=
  String.mk (renderCookieChars ps)

/-- A pair that reads back unambiguously: no `;` in it, no `=` in the name, and
neither a name starting nor a value ending with a character `trim` strips. -/
def CookiePair.wellFormed (p : CookiePair) : Bool :=
  !p.name.toList.contains ';' && !p.name.toList.contains '=' && !p.value.toList.contains ';'
    && (match p.name.toList.head? with
        | some c => !isJsSpace c
        | Option.none => true)
    && (match p.value.toList.getLast? with
        | some c => !isJsSpace c
        | Option.none => true)

/-- The cookie value by name, in the words of the claim: the decoded value of
the first pair named exactly `n`, and `null` when no pair is. -/
def lookupCookie (ps : List CookiePair) (n : String) : Except JsError JsVal :=
  match ps.find? (fun p => p.name == n) with
  | Option.none => .ok .null
  | some p => (decodeURIComponent p.value).map .str

/-- Every request a handler added to the trace carries the header
`X-CSRFToken` with the given value. -/
def CarriesToken (w : World) (r : Run) (token : JsVal) : Prop :=
  ∃ added, fetches r.world.trace = fetches w.trace ++ added ∧
    ∀ q ∈ added, q.headers.lookup "X-CSRFToken" = some token

/-! ## Sample inputs -/

/-- A freshly loaded page: no token captured, nothing shown, nothing pending. -/
def sampleWorld : World :=
  { now := 0, csrfToken := .undefined, body := [], timers := [], trace := [] }

/-- A flagged form with a submit control labelled Save. -/
def sampleForm : Form :=
  { action := "/profile/update/", method := "post", fields := [("name", "Ada")],
    submitBtn := some ⟨false, "Save"⟩ }

/-- The doctor-search modal as the template renders it: everything hidden. -/
def sampleDom : SearchDom :=
  { modal := ["hidden"], loadingState := ["hidden"], searchResults := ["hidden"],
    noResults := ["hidden"], resultsSummary := ["hidden"],
    searchResultsHtml := .str "", resultsCountText := .str "" }

/-- A failure response whose message is a map of field errors, not a text. -/
def fieldErrorsResponse : JsVal :=
  .obj [("success", .bool false), ("message", .obj [("email", .str "invalid")])]

/-- The kinds the table `colors` has an entry for. -/
def supportedKinds : List String :=
  ["success", "error", "warning", "info"]

/-- A response that reports success and nothing else. -/
def okResponse : JsVal :=
  .obj [("success", .bool true)]

/-- A failure response with a text message. -/
def deniedResponse : JsVal :=
  .obj [("success", .bool false), ("message", .str "denied")]

/-- A provider page with one start button in the calendar, outside the queue,
and one inside the queue; each has the listener registered at start-up. -/
def samplePage : ProviderPage :=
  { queue := some (.str "")
    actions := [⟨false, some "start", some "7", 1⟩, ⟨true, some "start", some "8", 1⟩] }

/-- A queue response carrying markup. -/
def queueResponse : JsVal :=
  .obj [("success", .bool true), ("html", .str "<button>Start</button>")]

/-- A cookie string with a session cookie and the CSRF token cookie. -/
def sampleCookies : List CookiePair :=
  [⟨"sessionid", "abc", 0, 0⟩, ⟨"csrftoken2", "other", 1, 0⟩, ⟨"csrftoken", "tok%20123", 1, 0⟩]

/-- The page right after the bootstrap read the sample cookie string. -/
def tokenWorld : World :=
  (setupCSRFToken sampleWorld (renderCookies sampleCookies)).world

/-- Two nodes showing the same statistic, and one showing another. -/
def sampleStatNodes : List StatNode :=
  [⟨"patients", .str "10"⟩, ⟨"visits", .str "20"⟩, ⟨"patients", .str "10"⟩]

/-- A stats response for one of the tags. -/
def patientsResponse : JsVal :=
  .obj [("success", .bool true), ("stats", .obj [("patients", .str "12")])]

/-! ## Invariants used in the proofs -/

/-- The pending timers that act on node `n`. -/
def timersOf (n : Nat) (ts : List Timer) : List Timer :=
  ts.filter (fun t => decide (t.action.target = some n))

/-- The firings one pending timer can cause: an auto-exit timer fires and
schedules a removal, every other timer just fires. -/
def timerWeight (t : Timer) : Nat :=
  match t.action with
  | .slideOut _ => 2
  | _ => 1

/-- A bound on the firings a list of pending timers can cause. -/
def firings : List Timer → Nat
  | [] => 0
  | t :: ts => timerWeight t + firings ts

/-- The document stays loaded as time passes: it has not been told to leave and
no reload is scheduled. -/
def staysLoaded (w : World) : Bool :=
  !w.leaving && w.timers.all (fun t => decide (t.action ≠ .reload))

/-- The node after its enter timer has fired. -/
def slidIn (node : NotificationNode) : NotificationNode :=
  { node with classList := classRemove node.classList "translate-x-full" }

/-- The node after its auto-exit timer has fired. -/
def slidOut (node : NotificationNode) : NotificationNode :=
  { node with classList := classAdd (slidIn node).classList "translate-x-full" }

/-- Where node `n`, created at time `t0` as `node`, stands in a run that lets
time pass until `T`: its class list and its pending timers move together through
the four stages, and a stage is entered only once its instant is within `T`. -/
def Lifecycle (n t0 T : Nat) (node : NotificationNode) (v : World) : Prop :=
  (v.now ≤ t0 ∨ ∀ x ∈ v.timers, v.now ≤ x.due) ∧
  ((findNode v n = some node ∧
      timersOf n v.timers = [⟨t0 + 100, .slideIn n⟩, ⟨t0 + 5000, .slideOut n⟩]) ∨
   (findNode v n = some (slidIn node) ∧
      timersOf n v.timers = [⟨t0 + 5000, .slideOut n⟩] ∧ t0 + 100 ≤ T) ∨
   (findNode v n = some (slidOut node) ∧
      timersOf n v.timers = [⟨t0 + 5300, .removeNode n⟩] ∧ t0 + 5000 ≤ T) ∨
   (findNode v n = Option.none ∧ timersOf n v.timers = [] ∧ t0 + 5300 ≤ T))

/-! # Theorems -/

/-! ## Auxiliary facts -/

theorem fetches_append (xs ys : List Effect) : fetches (xs ++ ys) = fetches xs ++ fetches ys := by
  induction xs with
  | nil => rfl
  | cons e es ih => cases e <;> simp [fetches, ih]

theorem notified_append (xs ys : List Effect) :
    notified (xs ++ ys) = notified xs ++ notified ys := by
  induction xs with
  | nil => rfl
  | cons e es ih => cases e <;> simp [notified, ih]

theorem navigated_append (xs ys : List Effect) :
    navigated (xs ++ ys) = navigated xs ++ navigated ys := by
  induction xs with
  | nil => rfl
  | cons e es ih => cases e <;> simp [navigated, ih]

theorem colors_success : colors "success" = some ["bg-green-500", "text-white"] := by
  decide

theorem colors_error : colors "error" = some ["bg-red-500", "text-white"] := by
  decide

/-- A call with kind `error` appends one node, two timers and one trace entry. -/
theorem showNotification_error (w : World) (m : JsVal) :
    showNotification w "error" m =
      ⟨World.setTimeout (World.setTimeout
          (w.appendNotification
            ⟨freshId w, classAddAll baseClasses ["bg-red-500", "text-white"], m⟩ "error")
          100 (.slideIn (freshId w))) 5000 (.slideOut (freshId w)), .ok ()⟩ := by
  simp [showNotification, colors_error]

/-- A call with kind `success` appends one node, two timers and one trace entry. -/
theorem showNotification_success (w : World) (m : JsVal) :
    showNotification w "success" m =
      ⟨World.setTimeout (World.setTimeout
          (w.appendNotification
            ⟨freshId w, classAddAll baseClasses ["bg-green-500", "text-white"], m⟩ "success")
          100 (.slideIn (freshId w))) 5000 (.slideOut (freshId w)), .ok ()⟩ := by
  simp [showNotification, colors_success]

/-- Where one property read succeeds, every property read succeeds. -/
theorem getProp_of_ok {data v : JsVal} {k : String} (h : getProp data k = .ok v) (k2 : String) :
    getProp data k2 = .ok (field data k2) := by
  cases data <;> simp_all [getProp, field]

/-- The one try block shared by four actions calls fetch exactly once, then
the catch block none. -/
theorem fetches_postThenReload (w : World) (url : String) (body : Body) (done label text : String)
    (o : FetchOutcome) :
    fetches (catchNotify (postThenReloadTry w url body done o) label text).world.trace =
      fetches w.trace ++ [postRequest w url body] := by
  simp only [catchNotify, postThenReloadTry]
  cases o with
  | rejected =>
    simp [FetchOutcome.toExcept, showNotification_error, World.log, World.setTimeout,
      World.appendNotification, fetches_append, fetches]
  | unparsable =>
    simp [FetchOutcome.toExcept, showNotification_error, World.log, World.setTimeout,
      World.appendNotification, fetches_append, fetches]
  | json data =>
    simp only [FetchOutcome.toExcept]
    cases hs : getProp data "success" with
    | error e =>
      simp [showNotification_error, World.log, World.setTimeout,
        World.appendNotification, fetches_append, fetches]
    | ok s =>
      by_cases ht : truthy s = true
      · simp [ht, showNotification_success, World.log, World.setTimeout,
          World.appendNotification, fetches_append, fetches]
      · simp [ht, World.log, fetches_append, fetches]

theorem shown_classRemove (cs : List String) : shown (classRemove cs "hidden") = true := by
  simp [shown, classRemove]

theorem shown_classAdd (cs : List String) : shown (classAdd cs "hidden") = false := by
  unfold shown classAdd
  split <;> simp_all

theorem classAdd_classAdd (cs : List String) (c : String) :
    classAdd (classAdd cs c) c = classAdd cs c := by
  unfold classAdd
  split <;> simp_all

/-- Every member of a list is below the bound `freshId` folds over it. -/
theorem lt_foldr_max (l : List Nat) (i : Nat) (h : i ∈ l) :
    i < l.foldr (fun i acc => max (i + 1) acc) 0 := by
  induction l with
  | nil => simp at h
  | cons a as ih =>
    simp only [List.foldr_cons]
    rcases List.mem_cons.mp h with h1 | h1
    · subst h1; omega
    · have := ih h1; omega

/-- Every identity in use is below the fresh one. -/
theorem lt_freshId (w : World) (i : Nat) (h : i ∈ usedIds w) : i < freshId w :=
  lt_foldr_max _ i h

/-- No attached node carries the fresh identity. -/
theorem freshId_not_in_body (w : World) (x : NotificationNode) (h : x ∈ w.body) :
    x.id ≠ freshId w := by
  have : x.id ∈ usedIds w := by
    simp only [usedIds, List.mem_append, List.mem_map]
    exact Or.inl ⟨x, h, rfl⟩
  have := lt_freshId w _ this
  omega

/-- No pending timer acts on the fresh identity. -/
theorem freshId_not_in_timers (w : World) (t : Timer) (h : t ∈ w.timers) :
    t.action.target ≠ some (freshId w) := by
  intro ht
  have : freshId w ∈ usedIds w := by
    simp only [usedIds, List.mem_append, List.mem_filterMap]
    exact Or.inr ⟨t, h, ht⟩
  have := lt_freshId w _ this
  omega

/-- A supported kind has colour classes, none of them among the base classes. -/
theorem colors_supported (type : String) (h : type ∈ supportedKinds) :
    ∃ cs, colors type = some cs ∧ classAddAll baseClasses cs = baseClasses ++ cs := by
  simp only [supportedKinds, List.mem_cons, List.mem_singleton, List.not_mem_nil, or_false] at h
  rcases h with h | h | h | h <;> subst h
  · exact ⟨["bg-green-500", "text-white"], by decide, by decide⟩
  · exact ⟨["bg-red-500", "text-white"], by decide, by decide⟩
  · exact ⟨["bg-yellow-500", "text-white"], by decide, by decide⟩
  · exact ⟨["bg-blue-500", "text-white"], by decide, by decide⟩

/-- The state a call with a supported kind leaves. -/
theorem showNotification_supported (w : World) (type : String) (m : JsVal) (cs : List String)
    (h : colors type = some cs) :
    showNotification w type m =
      ⟨World.setTimeout (World.setTimeout
          (w.appendNotification ⟨freshId w, classAddAll baseClasses cs, m⟩ type)
          100 (.slideIn (freshId w))) 5000 (.slideOut (freshId w)), .ok ()⟩ := by
  simp [showNotification, h]

/-! ## The timer queue -/

theorem earliest_mem {l : List Timer} {x : Timer} (h : earliest l = some x) : x ∈ l := by
  induction l generalizing x with
  | nil => simp [earliest] at h
  | cons t ts ih =>
    simp only [earliest] at h
    cases he : earliest ts with
    | none =>
      rw [he] at h
      simp only [Option.some.injEq] at h
      subst h
      exact List.mem_cons_self _ _
    | some u =>
      rw [he] at h
      simp only at h
      split at h
      · simp only [Option.some.injEq] at h
        subst h
        exact List.mem_cons_self _ _
      · simp only [Option.some.injEq] at h
        subst h
        exact List.mem_cons_of_mem _ (ih he)

theorem earliest_le {l : List Timer} {x : Timer} (h : earliest l = some x) :
    ∀ y ∈ l, x.due ≤ y.due := by
  induction l generalizing x with
  | nil => simp [earliest] at h
  | cons t ts ih =>
    simp only [earliest] at h
    cases he : earliest ts with
    | none =>
      rw [he] at h
      simp only [Option.some.injEq] at h
      subst h
      have hts : ts = [] := by
        cases ts with
        | nil => rfl
        | cons a as =>
          simp only [earliest] at he
          cases h2 : earliest as with
          | none => rw [h2] at he; simp at he
          | some u => rw [h2] at he; simp only at he; split at he <;> simp at he
      subst hts
      intro y hy
      simp only [List.mem_singleton] at hy
      subst hy
      exact Nat.le_refl _
    | some u =>
      rw [he] at h
      simp only at h
      intro y hy
      have hu := ih he
      split at h
      · simp only [Option.some.injEq] at h
        subst h
        rcases List.mem_cons.mp hy with h1 | h1
        · subst h1; exact Nat.le_refl _
        · have := hu y h1; omega
      · simp only [Option.some.injEq] at h
        subst h
        rcases List.mem_cons.mp hy with h1 | h1
        · subst h1; omega
        · exact hu y h1

theorem earliest_none {l : List Timer} (h : earliest l = Option.none) : l = [] := by
  cases l with
  | nil => rfl
  | cons a as =>
    simp only [earliest] at h
    cases h2 : earliest as with
    | none => rw [h2] at h; simp at h
    | some u => rw [h2] at h; simp only at h; split at h <;> simp at h

theorem timerWeight_pos (t : Timer) : 1 ≤ timerWeight t := by
  unfold timerWeight
  split <;> omega

theorem timerWeight_le (t : Timer) : timerWeight t ≤ 2 := by
  unfold timerWeight
  split <;> omega

theorem firings_append (xs ys : List Timer) : firings (xs ++ ys) = firings xs + firings ys := by
  induction xs with
  | nil => simp [firings]
  | cons t ts ih =>
    have : firings (t :: ts ++ ys) = timerWeight t + firings (ts ++ ys) := rfl
    rw [this, ih]
    simp only [firings]
    omega

theorem firings_le (l : List Timer) : firings l ≤ 2 * l.length := by
  induction l with
  | nil => simp [firings]
  | cons t ts ih =>
    have := timerWeight_le t
    simp only [firings, List.length_cons]
    omega

/-- Erasing a pending timer lowers the bound by what that timer counts for. -/
theorem firings_erase {l : List Timer} {x : Timer} (h : x ∈ l) :
    firings (l.erase x) + timerWeight x = firings l := by
  induction l with
  | nil => simp at h
  | cons t ts ih =>
    by_cases hx : t = x
    · subst hx
      simp only [List.erase_cons_head, firings]
      omega
    · have hmem : x ∈ ts := by
        rcases List.mem_cons.mp h with h1 | h1
        · exact absurd h1.symm hx
        · exact h1
      have hne : ¬ (t == x) = true := by simpa using hx
      rw [List.erase_cons_tail hne]
      have := ih hmem
      simp only [firings] at this ⊢
      omega

/-- Firing a pending timer lowers the bound on the firings left. -/
theorem firings_fire (w : World) (x : Timer) (h : x ∈ w.timers) :
    firings (fire w x).timers < firings w.timers := by
  have he := firings_erase h
  rcases x with ⟨d, a⟩
  cases a <;>
    simp only [fire, World.setTimeout, World.log, World.unload, firings_append, firings,
      timerWeight] at he ⊢ <;> omega

/-- With fuel for every firing left, no timer due within `T` stays pending. -/
theorem runTimers_complete (fuel T : Nat) (w : World) (h : firings w.timers ≤ fuel) :
    ∀ x ∈ (runTimers fuel T w).timers, T < x.due := by
  induction fuel generalizing w with
  | zero =>
    have hnil : w.timers = [] := by
      cases hw : w.timers with
      | nil => rfl
      | cons t ts =>
        rw [hw] at h
        have := timerWeight_pos t
        simp only [firings] at h
        omega
    simp [runTimers, hnil]
  | succ k ih =>
    simp only [runTimers]
    cases he : earliest w.timers with
    | none => simp [earliest_none he]
    | some t =>
      simp only
      by_cases hd : t.due ≤ T
      · simp only [hd, if_true]
        apply ih
        have := firings_fire w t (earliest_mem he)
        omega
      · simp only [hd, if_false]
        intro x hx
        have := earliest_le he x hx
        omega

/-! ## One notification among the others -/

theorem find_mapNode_ne (body : List NotificationNode) (j n : Nat)
    (f : List String → List String) (h : j ≠ n) :
    (mapNode body j f).find? (fun x => x.id == n) = body.find? (fun x => x.id == n) := by
  induction body with
  | nil => rfl
  | cons a as ih =>
    simp only [mapNode, List.map_cons, List.find?_cons] at ih ⊢
    by_cases ha : a.id = j
    · have hn : ¬ a.id = n := fun hc => h (ha.symm.trans hc)
      simp only [ha, if_true]
      have hj : (j == n) = false := by simpa using h
      have han : (a.id == n) = false := by simpa using hn
      simp only [hj, han]
      exact ih
    · simp only [ha, if_false]
      cases hb : (a.id == n)
      · simp only
        exact ih
      · rfl

theorem find_mapNode_self (body : List NotificationNode) (n : Nat)
    (f : List String → List String) :
    (mapNode body n f).find? (fun x => x.id == n) =
      (body.find? (fun x => x.id == n)).map (fun x => { x with classList := f x.classList }) := by
  induction body with
  | nil => rfl
  | cons a as ih =>
    simp only [mapNode, List.map_cons, List.find?_cons] at ih ⊢
    by_cases ha : a.id = n
    · simp [ha]
    · have han : (a.id == n) = false := by simpa using ha
      simp only [ha, if_false, han]
      exact ih

theorem find_filter_ne (body : List NotificationNode) (j n : Nat) (h : j ≠ n) :
    (body.filter (fun x => x.id != j)).find? (fun x => x.id == n) =
      body.find? (fun x => x.id == n) := by
  induction body with
  | nil => rfl
  | cons a as ih =>
    by_cases ha : a.id = j
    · have hn : ¬ a.id = n := fun hc => h (ha.symm.trans hc)
      have han : (a.id == n) = false := by simpa using hn
      simp [List.filter_cons, ha, List.find?_cons, han, ih, h]
    · by_cases hb : a.id = n
      · have hnj : ¬ n = j := fun hc => h hc.symm
        have hja : ¬ a.id = j := ha
        rw [hb] at hja
        simp [List.filter_cons, hnj, List.find?_cons, hb]
      · have han : (a.id == n) = false := by simpa using hb
        simp [List.filter_cons, ha, List.find?_cons, han, ih]

theorem find_filter_self (body : List NotificationNode) (n : Nat) :
    (body.filter (fun x => x.id != n)).find? (fun x => x.id == n) = Option.none := by
  simp [List.find?_eq_none]

/-- A timer of another node leaves node `n` as it is. -/
theorem findNode_fire_other (w : World) (x : Timer) (n : Nat) (hr : x.action ≠ .reload)
    (h : x.action.target ≠ some n) : findNode (fire w x) n = findNode w n := by
  rcases x with ⟨d, a⟩
  cases a with
  | slideIn j =>
    have hj : j ≠ n := fun hc => h (by simp [TimerAction.target, hc])
    simp [fire, findNode, find_mapNode_ne _ j n _ hj]
  | slideOut j =>
    have hj : j ≠ n := fun hc => h (by simp [TimerAction.target, hc])
    simp [fire, findNode, World.setTimeout, find_mapNode_ne _ j n _ hj]
  | removeNode j =>
    have hj : j ≠ n := fun hc => h (by simp [TimerAction.target, hc])
    simp only [fire, findNode]
    exact find_filter_ne _ j n hj
  | reload => exact absurd rfl hr

theorem timersOf_erase_other (l : List Timer) (x : Timer) (n : Nat)
    (h : x.action.target ≠ some n) : timersOf n (l.erase x) = timersOf n l := by
  unfold timersOf
  rw [← List.erase_filter]
  apply List.erase_of_not_mem
  simp [List.mem_filter, h]

theorem timersOf_erase_self (l : List Timer) (x : Timer) (n : Nat) :
    timersOf n (l.erase x) = (timersOf n l).erase x := by
  unfold timersOf
  rw [List.erase_filter]

/-- A timer of another node leaves the timers of node `n` as they are. -/
theorem timersOf_fire_other (w : World) (x : Timer) (n : Nat) (hr : x.action ≠ .reload)
    (h : x.action.target ≠ some n) : timersOf n (fire w x).timers = timersOf n w.timers := by
  have he := timersOf_erase_other w.timers x n h
  rcases x with ⟨d, a⟩
  cases a with
  | slideIn j => simpa [fire] using he
  | slideOut j =>
    have hj : ¬ j = n := fun hc => h (by simp [TimerAction.target, hc])
    have : timersOf n [⟨max w.now d + 300, TimerAction.removeNode j⟩] = [] := by
      simp [timersOf, TimerAction.target, hj]
    simp only [fire, World.setTimeout]
    unfold timersOf at he this ⊢
    rw [List.filter_append, he, this, List.append_nil]
  | removeNode j => simpa [fire] using he
  | reload => exact absurd rfl hr

/-- Firing a timer schedules no reload. -/
theorem noReload_fire (w : World) (x : Timer) (h : ∀ y ∈ w.timers, y.action ≠ .reload) :
    ∀ y ∈ (fire w x).timers, y.action ≠ .reload := by
  intro y hy
  rcases x with ⟨d, a⟩
  cases a <;> simp only [fire, World.setTimeout, World.log, World.unload, List.mem_append,
    List.mem_singleton, List.not_mem_nil] at hy
  · exact h y (List.mem_of_mem_erase hy)
  · rcases hy with hy | hy
    · exact h y (List.mem_of_mem_erase hy)
    · subst hy
      exact fun hc => nomatch hc
  · exact h y (List.mem_of_mem_erase hy)

/-- Firing the earliest pending timer keeps the clock at or before every timer
still pending, or at or before `t0` when it was so and the timer was overdue. -/
theorem clock_fire (w : World) (x : Timer) (t0 : Nat)
    (hx : earliest w.timers = some x)
    (h : w.now ≤ t0 ∨ ∀ y ∈ w.timers, w.now ≤ y.due) :
    (fire w x).now ≤ t0 ∨ ∀ y ∈ (fire w x).timers, (fire w x).now ≤ y.due := by
  have hle := earliest_le hx
  have hnow : (fire w x).now = max w.now x.due := by
    rcases x with ⟨d, a⟩
    cases a <;> simp [fire, World.setTimeout, World.log, World.unload]
  have hsub : ∀ y ∈ (fire w x).timers,
      y ∈ w.timers ∨ y.due = max w.now x.due + 300 := by
    intro y hy
    rcases x with ⟨d, a⟩
    cases a <;> simp only [fire, World.setTimeout, World.log, World.unload, List.mem_append,
      List.mem_singleton, List.not_mem_nil] at hy
    · exact Or.inl (List.mem_of_mem_erase hy)
    · rcases hy with hy | hy
      · exact Or.inl (List.mem_of_mem_erase hy)
      · subst hy; exact Or.inr rfl
    · exact Or.inl (List.mem_of_mem_erase hy)
  rw [hnow]
  by_cases hc : max w.now x.due ≤ t0
  · exact Or.inl hc
  · right
    intro y hy
    rcases hsub y hy with h1 | h1
    · have h2 := hle y h1
      rcases h with h | h
      · omega
      · have := h y h1; omega
    · omega

/-- Firing the earliest pending timer, due within `T` and not a reload, moves the
notification along its lifecycle or leaves it where it stands. -/
theorem lifecycle_fire (n t0 T : Nat) (node : NotificationNode) (w : World) (x : Timer)
    (hx : earliest w.timers = some x) (hT : x.due ≤ T) (hr : x.action ≠ .reload)
    (h : Lifecycle n t0 T node w) :
    Lifecycle n t0 T node (fire w x) := by
  obtain ⟨hclock, hphase⟩ := h
  refine ⟨clock_fire w x t0 hx hclock, ?_⟩
  by_cases hm : x.action.target = some n
  · have hmem : x ∈ timersOf n w.timers := by
      simp only [timersOf, List.mem_filter, decide_eq_true_eq]
      exact ⟨earliest_mem hx, hm⟩
    have hle := earliest_le hx
    have hof : ∀ y, y ∈ timersOf n w.timers → y ∈ w.timers := by
      intro y hy
      simp only [timersOf, List.mem_filter] at hy
      exact hy.1
    rcases hphase with ⟨hf, ht⟩ | ⟨hf, ht, hb⟩ | ⟨hf, ht, hb⟩ | ⟨hf, ht, hb⟩
    · have h1 : (⟨t0 + 100, .slideIn n⟩ : Timer) ∈ timersOf n w.timers := by simp [ht]
      rw [ht] at hmem
      simp only [List.mem_cons, List.mem_singleton, List.not_mem_nil, or_false] at hmem
      rcases hmem with hmem | hmem
      · subst hmem
        right; left
        refine ⟨?_, ?_, by simpa using hT⟩
        · simp only [findNode] at hf
          simp [fire, findNode, find_mapNode_self, hf, slidIn]
        · have : (fire w ⟨t0 + 100, .slideIn n⟩).timers = w.timers.erase ⟨t0 + 100, .slideIn n⟩ := by
            simp [fire]
          rw [this, timersOf_erase_self, ht]
          simp
      · subst hmem
        have := hle _ (hof _ h1)
        simp only at this
        omega
    · rw [ht] at hmem
      simp only [List.mem_singleton] at hmem
      subst hmem
      right; right; left
      have hnow : max w.now (t0 + 5000) = t0 + 5000 := by
        rcases hclock with hc | hc
        · omega
        · have := hc _ (earliest_mem hx)
          simp only at this
          omega
      refine ⟨?_, ?_, by simpa using hT⟩
      · simp only [findNode] at hf
        simp [fire, findNode, World.setTimeout, find_mapNode_self, hf, slidOut, slidIn]
      · have : (fire w ⟨t0 + 5000, .slideOut n⟩).timers =
            w.timers.erase ⟨t0 + 5000, .slideOut n⟩ ++ [⟨t0 + 5300, .removeNode n⟩] := by
          simp [fire, World.setTimeout, hnow]
        rw [this]
        have he := timersOf_erase_self w.timers ⟨t0 + 5000, .slideOut n⟩ n
        rw [ht] at he
        unfold timersOf at he ⊢
        rw [List.filter_append, he]
        simp [TimerAction.target]
    · rw [ht] at hmem
      simp only [List.mem_singleton] at hmem
      subst hmem
      right; right; right
      refine ⟨?_, ?_, by simpa using hT⟩
      · simp only [fire, findNode]
        exact find_filter_self _ n
      · have : (fire w ⟨t0 + 5300, .removeNode n⟩).timers =
            w.timers.erase ⟨t0 + 5300, .removeNode n⟩ := by
          simp [fire]
        rw [this, timersOf_erase_self, ht]
        simp
    · rw [ht] at hmem
      simp at hmem
  · rw [findNode_fire_other w x n hr hm, timersOf_fire_other w x n hr hm]
    exact hphase

/-- The lifecycle stage is kept along a run of the timer queue that holds no
reload. -/
theorem lifecycle_run (n t0 T : Nat) (node : NotificationNode) (fuel : Nat) (w : World)
    (hnr : ∀ y ∈ w.timers, y.action ≠ .reload)
    (h : Lifecycle n t0 T node w) : Lifecycle n t0 T node (runTimers fuel T w) := by
  induction fuel generalizing w with
  | zero => exact h
  | succ k ih =>
    simp only [runTimers]
    cases he : earliest w.timers with
    | none => exact h
    | some t =>
      simp only
      by_cases hd : t.due ≤ T
      · simp only [hd, if_true]
        exact ih _ (noReload_fire w t hnr)
          (lifecycle_fire n t0 T node w t he hd (hnr t (earliest_mem he)) h)
      · simp only [hd, if_false]
        exact h

/-- Right after `showNotification` the new node is at the first stage. -/
theorem lifecycle_start (w : World) (type : String) (message : JsVal) (cs : List String)
    (T : Nat) (hc : colors type = some cs) :
    Lifecycle (freshId w) w.now T ⟨freshId w, classAddAll baseClasses cs, message⟩
      (showNotification w type message).world := by
  rw [showNotification_supported w type message cs hc]
  refine ⟨Or.inl (by simp [World.setTimeout, World.appendNotification]), Or.inl ⟨?_, ?_⟩⟩
  · have hnone : w.body.find? (fun x => x.id == freshId w) = Option.none := by
      rw [List.find?_eq_none]
      intro x hx
      simpa using freshId_not_in_body w x hx
    simp [findNode, World.setTimeout, World.appendNotification, List.find?_append, hnone]
  · have hnone : timersOf (freshId w) w.timers = [] := by
      simp only [timersOf, List.filter_eq_nil_iff, decide_eq_true_eq]
      exact fun t ht => freshId_not_in_timers w t ht
    have htwo : timersOf (freshId w)
        [⟨w.now + 100, .slideIn (freshId w)⟩, ⟨w.now + 5000, .slideOut (freshId w)⟩] =
        [⟨w.now + 100, .slideIn (freshId w)⟩, ⟨w.now + 5000, .slideOut (freshId w)⟩] := by
      simp [timersOf, TimerAction.target]
    have happ : (World.setTimeout (World.setTimeout
        (w.appendNotification ⟨freshId w, classAddAll baseClasses cs, message⟩ type)
        100 (.slideIn (freshId w))) 5000 (.slideOut (freshId w))).timers =
        w.timers ++
          [⟨w.now + 100, .slideIn (freshId w)⟩, ⟨w.now + 5000, .slideOut (freshId w)⟩] := by
      simp [World.setTimeout, World.appendNotification]
    rw [happ]
    unfold timersOf at hnone htwo ⊢
    rw [List.filter_append, hnone, htwo, List.nil_append]

theorem exitPending_timersOf (ts : List Timer) (n : Nat) :
    ts.any (fun t => decide (t.action = .slideOut n)) =
      (timersOf n ts).any (fun t => decide (t.action = .slideOut n)) := by
  induction ts with
  | nil => rfl
  | cons t rest ih =>
    unfold timersOf at ih ⊢
    by_cases ht : t.action = .slideOut n
    · simp [List.filter_cons, ht, TimerAction.target]
    · by_cases hn : t.action.target = some n
      · simp [List.filter_cons, ht, hn, ih]
      · simp [List.filter_cons, ht, hn, ih]

theorem mem_classAdd (cs : List String) (c : String) : c ∈ classAdd cs c := by
  unfold classAdd
  split <;> simp_all

theorem not_mem_classRemove (cs : List String) (c : String) : c ∉ classRemove cs c := by
  simp [classRemove]

/-- Where the notification stands once time has passed until `T`: the stage, and
the bounds on `T` that go with it. -/
theorem visibility_after (w : World) (type : String) (message : JsVal) (cs : List String)
    (T : Nat) (hc : colors type = some cs)
    (hcs : classAddAll baseClasses cs = baseClasses ++ cs) (hs : staysLoaded w = true) :
    (visibility (advance T (showNotification w type message).world) (freshId w) = .entering ∧
        T < w.now + 100) ∨
    (visibility (advance T (showNotification w type message).world) (freshId w) = .visible ∧
        w.now + 100 ≤ T ∧ T < w.now + 5000) ∨
    (visibility (advance T (showNotification w type message).world) (freshId w) = .exiting ∧
        w.now + 5000 ≤ T ∧ T < w.now + 5300) ∨
    (visibility (advance T (showNotification w type message).world) (freshId w) = .removed ∧
        w.now + 5300 ≤ T) := by
  simp only [staysLoaded, Bool.and_eq_true, Bool.not_eq_true', List.all_eq_true,
    decide_eq_true_eq] at hs
  obtain ⟨hstay, hnr0⟩ := hs
  have hleave : (showNotification w type message).world.leaving = false := by
    rw [showNotification_supported w type message cs hc]
    simpa [World.leaving, World.setTimeout, World.appendNotification] using hstay
  have hnr : ∀ y ∈ (showNotification w type message).world.timers, y.action ≠ .reload := by
    rw [showNotification_supported w type message cs hc]
    intro y hy
    simp only [World.setTimeout, World.appendNotification, List.mem_append,
      List.mem_singleton] at hy
    rcases hy with (hy | hy) | hy
    · exact hnr0 y hy
    · subst hy
      exact fun hc2 => nomatch hc2
    · subst hy
      exact fun hc2 => nomatch hc2
  have hlife := lifecycle_run (freshId w) w.now T _ (2 * (showNotification w type message).world.timers.length) _
    hnr (lifecycle_start w type message cs T hc)
  have hdone := runTimers_complete (2 * (showNotification w type message).world.timers.length) T
    (showNotification w type message).world (firings_le _)
  have hvis : visibility (advance T (showNotification w type message).world) (freshId w) =
      visibility (runTimers (2 * (showNotification w type message).world.timers.length) T
        (showNotification w type message).world) (freshId w) := by
    simp [visibility, advance, findNode, exitPending, hleave]
  rw [hvis]
  clear hvis
  generalize runTimers (2 * (showNotification w type message).world.timers.length) T
    (showNotification w type message).world = v at hlife hdone
  have hof : ∀ y, y ∈ timersOf (freshId w) v.timers → T < y.due := by
    intro y hy
    simp only [timersOf, List.mem_filter] at hy
    exact hdone y hy.1
  obtain ⟨_, hphase⟩ := hlife
  rcases hphase with ⟨hf, ht⟩ | ⟨hf, ht, hb⟩ | ⟨hf, ht, hb⟩ | ⟨hf, ht, hb⟩
  · left
    have h1 := hof ⟨w.now + 100, .slideIn (freshId w)⟩ (by simp [ht])
    refine ⟨?_, by simpa using h1⟩
    rw [hcs] at hf
    simp [visibility, hf, baseClasses, exitPending, exitPending_timersOf v.timers, ht]
  · right; left
    have h1 := hof ⟨w.now + 5000, .slideOut (freshId w)⟩ (by simp [ht])
    refine ⟨?_, hb, by simpa using h1⟩
    simp [visibility, hf, slidIn, not_mem_classRemove]
  · right; right; left
    have h1 := hof ⟨w.now + 5300, .removeNode (freshId w)⟩ (by simp [ht])
    refine ⟨?_, hb, by simpa using h1⟩
    simp [visibility, hf, slidOut, mem_classAdd, exitPending, exitPending_timersOf v.timers, ht]
  · right; right; right
    exact ⟨by simp [visibility, hf], hb⟩

/-! ## The AJAX form handler -/

/-- C1: for every form with a submit control and every outcome of the request
(a parsed body of any shape, a rejected fetch, an unparsable body),
`handleAjaxForm` completes and leaves the submit control enabled with the label
it had before the call. -/
theorem C1_submit_control_restored (w : World) (form : Form) (b : SubmitControl)
    (o : FetchOutcome) (h : form.submitBtn = some b) :
    (handleAjaxForm w form o).2.submitBtn = some ⟨false, b.textContent⟩ ∧
      (handleAjaxForm w form o).1.result = .ok () := by
  constructor
  · simp [handleAjaxForm, Form.setSubmit, h]
  · simp only [handleAjaxForm, ajaxCatch]
    cases hr : (ajaxTry w (form.setSubmit true "Loading...") o).result with
    | ok u => simp [hr]
    | error e => simp [showNotification_error]

/-- C1 at a sample form, with a rejected fetch. -/
theorem C1_submit_control_restored_witness :
    sampleForm.submitBtn = some ⟨false, "Save"⟩ ∧
      (handleAjaxForm sampleWorld sampleForm .rejected).2.submitBtn = some ⟨false, "Save"⟩ ∧
      (handleAjaxForm sampleWorld sampleForm .rejected).1.result = .ok () :=
  ⟨rfl, C1_submit_control_restored sampleWorld sampleForm ⟨false, "Save"⟩ .rejected rfl⟩

/-- C2: for every response whose `success` is truthy, `handleAjaxForm` calls
fetch, then appends one notification of kind success carrying
`data.message || 'Operation successful'` (the message itself when it is a
non-empty string, the default when none is supplied), and then, when `redirect`
is a non-empty URL `u`, assigns `u` to `window.location.href`; with no
`redirect` it stops after the notification and does not navigate. -/
theorem C2_success_notifies_then_navigates (w : World) (form : Form) (data success : JsVal)
    (hs : getProp data "success" = .ok success) (ht : truthy success = true) :
    (∀ u : String, field data "redirect" = .str u → u ≠ "" →
      (handleAjaxForm w form (.json data)).1.world.trace =
        w.trace ++ [.fetch (ajaxRequest w (form.setSubmit true "Loading...")),
          .notify "success" (jsOr (field data "message") (.str "Operation successful")),
          .navigate (.str u)]) ∧
    (field data "redirect" = .undefined →
      (handleAjaxForm w form (.json data)).1.world.trace =
        w.trace ++ [.fetch (ajaxRequest w (form.setSubmit true "Loading...")),
          .notify "success" (jsOr (field data "message") (.str "Operation successful"))]) ∧
    (∀ m : String, field data "message" = .str m → m ≠ "" →
      jsOr (field data "message") (.str "Operation successful") = .str m) ∧
    (field data "message" = .undefined →
      jsOr (field data "message") (.str "Operation successful") =
        .str "Operation successful") := by
  cases data with
  | undefined => simp [getProp] at hs
  | null => simp [getProp] at hs
  | bool b => simp [getProp] at hs; subst hs; simp [truthy] at ht
  | num q => simp [getProp] at hs; subst hs; simp [truthy] at ht
  | str t => simp [getProp] at hs; subst hs; simp [truthy] at ht
  | arr xs => simp [getProp] at hs; subst hs; simp [truthy] at ht
  | obj props =>
    simp only [getProp, Except.ok.injEq] at hs
    refine ⟨?_, ?_, ?_, ?_⟩
    · intro u hu hne
      simp only [field, getProp] at hu
      have htu : truthy (.str u) = true := by simp [truthy, hne]
      subst hs
      simp [handleAjaxForm, ajaxCatch, ajaxTry, FetchOutcome.toExcept, ajaxHandleData, getProp,
        ht, hu, htu, field, showNotification_success, World.log, World.setTimeout,
        World.appendNotification]
    · intro hu
      simp only [field, getProp] at hu
      have htu : truthy .undefined = false := rfl
      subst hs
      simp [handleAjaxForm, ajaxCatch, ajaxTry, FetchOutcome.toExcept, ajaxHandleData, getProp,
        ht, hu, htu, field, showNotification_success, World.log, World.setTimeout,
        World.appendNotification]
    · intro m hm hne
      simp [hm, jsOr, truthy, hne]
    · intro hm
      simp [hm, jsOr, truthy]

/-- C2 at the response `{success: true, redirect: "/x"}`. -/
theorem C2_success_notifies_then_navigates_witness :
    (handleAjaxForm sampleWorld sampleForm
        (.json (.obj [("success", .bool true), ("redirect", .str "/x")]))).1.world.trace =
      [.fetch (ajaxRequest sampleWorld (sampleForm.setSubmit true "Loading...")),
        .notify "success" (.str "Operation successful"),
        .navigate (.str "/x")] :=
  ((C2_success_notifies_then_navigates sampleWorld sampleForm
      (.obj [("success", .bool true), ("redirect", .str "/x")]) (.bool true) rfl rfl).1
    "/x" rfl (by decide))

/-- C3 fails as stated: on `{success: false, message: {email: "invalid"}}` the
message is not a non-empty string, yet the one notification shown carries that
message and not the fallback text. -/
theorem C3_counterexample :
    truthy (field fieldErrorsResponse "success") = false ∧
    (∀ m : String, field fieldErrorsResponse "message" ≠ .str m) ∧
    notified (handleAjaxForm sampleWorld sampleForm (.json fieldErrorsResponse)).1.world.trace =
      [("error", .obj [("email", .str "invalid")])] ∧
    JsVal.obj [("email", .str "invalid")] ≠ .str "An error occurred" := by
  refine ⟨rfl, ?_, rfl, ?_⟩
  · intro m h
    have hv : field fieldErrorsResponse "message" = .obj [("email", .str "invalid")] := rfl
    rw [hv] at h
    cases h
  · intro h
    cases h

/-- C3, amended: for every response whose `success` is falsy, `handleAjaxForm`
calls fetch and then appends exactly one notification, of kind error, carrying
`data.message || 'An error occurred'`: the message itself whenever it is truthy
(in particular when it is a non-empty string), the fallback when it is falsy
(absent, null, false, 0 or the empty string). It assigns nothing to
`window.location.href`, whatever `redirect` holds. -/
theorem C3_failure_notifies_error (w : World) (form : Form) (data success : JsVal)
    (hs : getProp data "success" = .ok success) (hf : truthy success = false) :
    (handleAjaxForm w form (.json data)).1.world.trace =
        w.trace ++ [.fetch (ajaxRequest w (form.setSubmit true "Loading...")),
          .notify "error" (jsOr (field data "message") (.str "An error occurred"))] ∧
    navigated (handleAjaxForm w form (.json data)).1.world.trace = navigated w.trace ∧
    (∀ m : String, field data "message" = .str m → m ≠ "" →
      jsOr (field data "message") (.str "An error occurred") = .str m) ∧
    (truthy (field data "message") = true →
      jsOr (field data "message") (.str "An error occurred") = field data "message") ∧
    (truthy (field data "message") = false →
      jsOr (field data "message") (.str "An error occurred") = .str "An error occurred") := by
  have hm := getProp_of_ok hs "message"
  have htr : (handleAjaxForm w form (.json data)).1.world.trace =
      w.trace ++ [.fetch (ajaxRequest w (form.setSubmit true "Loading...")),
        .notify "error" (jsOr (field data "message") (.str "An error occurred"))] := by
    simp [handleAjaxForm, ajaxCatch, ajaxTry, FetchOutcome.toExcept, ajaxHandleData, hs, hf, hm,
      showNotification_error, World.log, World.setTimeout, World.appendNotification]
  refine ⟨htr, ?_, ?_, ?_, ?_⟩
  · rw [htr, navigated_append]
    simp [navigated]
  · intro m hmm hne
    simp [hmm, jsOr, truthy, hne]
  · intro h
    simp [jsOr, h]
  · intro h
    simp [jsOr, h]

/-- C3 at the response `{success: false, message: "bad", redirect: "/x"}`. -/
theorem C3_failure_notifies_error_witness :
    (handleAjaxForm sampleWorld sampleForm
        (.json (.obj [("success", .bool false), ("message", .str "bad"),
          ("redirect", .str "/x")]))).1.world.trace =
      [.fetch (ajaxRequest sampleWorld (sampleForm.setSubmit true "Loading...")),
        .notify "error" (.str "bad")] :=
  (C3_failure_notifies_error sampleWorld sampleForm
    (.obj [("success", .bool false), ("message", .str "bad"), ("redirect", .str "/x")])
    (.bool false) rfl rfl).1

/-! ## Dashboard actions -/

/-- C4: for every appointment id, with the confirmation declined
`cancelAppointment` only shows the dialog (no fetch, no notification, no timer),
and with the confirmation accepted it calls fetch exactly once, whatever the
outcome, with method POST and the URL `/api/appointments/cancel/{id}/`. -/
theorem C4_cancel_confirmation_gate (w : World) (appointmentId : Option String)
    (o : FetchOutcome) :
    (cancelAppointment w appointmentId false o).world =
        w.log (.confirm "Are you sure you want to cancel this appointment?") ∧
    fetches (cancelAppointment w appointmentId false o).world.trace = fetches w.trace ∧
    notified (cancelAppointment w appointmentId false o).world.trace = notified w.trace ∧
    (cancelAppointment w appointmentId false o).world.timers = w.timers ∧
    fetches (cancelAppointment w appointmentId true o).world.trace =
      fetches w.trace ++
        [{ url := "/api/appointments/cancel/" ++ interp appointmentId ++ "/"
           query := []
           method := "POST"
           headers := [("X-CSRFToken", w.csrfToken), ("Content-Type", .str "application/json")]
           body := .none }] := by
  refine ⟨by simp [cancelAppointment], ?_, ?_, by simp [cancelAppointment, World.log], ?_⟩
  · simp [cancelAppointment, World.log, fetches_append, fetches]
  · simp [cancelAppointment, World.log, notified_append, notified]
  · simp only [cancelAppointment, catchNotify, cancelTry]
    cases o with
    | rejected =>
      simp [FetchOutcome.toExcept, showNotification_error, World.log, World.setTimeout,
        World.appendNotification, fetches_append, fetches, postRequest]
    | unparsable =>
      simp [FetchOutcome.toExcept, showNotification_error, World.log, World.setTimeout,
        World.appendNotification, fetches_append, fetches, postRequest]
    | json data =>
      simp only [FetchOutcome.toExcept]
      cases hs : getProp data "success" with
      | error e =>
        simp [showNotification_error, World.log, World.setTimeout,
          World.appendNotification, fetches_append, fetches, postRequest]
      | ok s =>
        have hm := getProp_of_ok hs "message"
        by_cases ht : truthy s = true
        · simp [ht, showNotification_success, World.log, World.setTimeout,
            World.appendNotification, fetches_append, fetches, postRequest]
        · simp [ht, hm, showNotification_error, World.log, World.setTimeout,
            World.appendNotification, fetches_append, fetches, postRequest]

/-- C5: for every verification type and id, when the prompt is cancelled or
returns the empty string `rejectVerification` only shows the prompt (no fetch),
and when it returns a non-empty reason `r` it calls fetch exactly once, whatever
the outcome, with method POST, the URL `/api/admin/verify/{type}/{id}/reject/`
and the body `JSON.stringify({reason: r})`. -/
theorem C5_reject_reason_gate (w : World) (type id : Option String) (o : FetchOutcome) :
    (rejectVerification w type id Option.none o).world =
        w.log (.prompt "Please provide a reason for rejection:") ∧
    (rejectVerification w type id (some "") o).world =
        w.log (.prompt "Please provide a reason for rejection:") ∧
    fetches (w.log (.prompt "Please provide a reason for rejection:")).trace = fetches w.trace ∧
    (∀ r : String, r ≠ "" →
      fetches (rejectVerification w type id (some r) o).world.trace =
        fetches w.trace ++
          [{ url := "/api/admin/verify/" ++ interp type ++ "/" ++ interp id ++ "/reject/"
             query := []
             method := "POST"
             headers := [("X-CSRFToken", w.csrfToken),
               ("Content-Type", .str "application/json")]
             body := .json (.obj [("reason", .str r)]) }]) := by
  refine ⟨by simp [rejectVerification], by simp [rejectVerification], ?_, ?_⟩
  · simp [World.log, fetches_append, fetches]
  · intro r hr
    simp only [rejectVerification, hr, if_false]
    rw [fetches_postThenReload]
    simp [World.log, fetches_append, fetches, postRequest]

/-- C5 at type `provider`, id `9` and the reason `duplicate`. -/
theorem C5_reject_reason_gate_witness :
    fetches (rejectVerification sampleWorld (some "provider") (some "9") (some "duplicate")
        (.json (.obj [("success", .bool true)]))).world.trace =
      [{ url := "/api/admin/verify/provider/9/reject/"
         query := []
         method := "POST"
         headers := [("X-CSRFToken", .undefined), ("Content-Type", .str "application/json")]
         body := .json (.obj [("reason", .str "duplicate")]) }] :=
  (C5_reject_reason_gate sampleWorld (some "provider") (some "9")
    (.json (.obj [("success", .bool true)]))).2.2.2 "duplicate" (by decide)

/-- C6: for every initial state of the panels and every response whose `count`
is the number 0, whatever its `success`, the submit handler of the doctor search
leaves the empty-state panel shown and the results, summary and loading panels
hidden. -/
theorem C6_search_empty_state (w : World) (dom : SearchDom) (formData : List (String × String))
    (data : JsVal) (hc : getProp data "count" = .ok (.num 0)) :
    shown (doctorSearchSubmit w dom formData (.json data)).dom.noResults = true ∧
    shown (doctorSearchSubmit w dom formData (.json data)).dom.searchResults = false ∧
    shown (doctorSearchSubmit w dom formData (.json data)).dom.resultsSummary = false ∧
    shown (doctorSearchSubmit w dom formData (.json data)).dom.loadingState = false := by
  have hs := getProp_of_ok hc "success"
  have hgt : jsGt (.num 0) 0 = false := by simp [jsGt, toNumber]
  by_cases ht : truthy (field data "success") = true <;>
    simp [doctorSearchSubmit, searchTry, FetchOutcome.toExcept, hs, hc, ht, hgt, Except.map,
      shown_classRemove, shown_classAdd, classAdd_classAdd]

/-- C6 at the response `{success: true, count: 0}` on the modal as rendered. -/
theorem C6_search_empty_state_witness :
    shown (doctorSearchSubmit sampleWorld sampleDom [("specialty", "cardiology")]
        (.json (.obj [("success", .bool true), ("count", .num 0)]))).dom.noResults = true ∧
    shown (doctorSearchSubmit sampleWorld sampleDom [("specialty", "cardiology")]
        (.json (.obj [("success", .bool true), ("count", .num 0)]))).dom.searchResults = false ∧
    shown (doctorSearchSubmit sampleWorld sampleDom [("specialty", "cardiology")]
        (.json (.obj [("success", .bool true), ("count", .num 0)]))).dom.resultsSummary = false ∧
    shown (doctorSearchSubmit sampleWorld sampleDom [("specialty", "cardiology")]
        (.json (.obj [("success", .bool true), ("count", .num 0)]))).dom.loadingState = false :=
  C6_search_empty_state sampleWorld sampleDom [("specialty", "cardiology")]
    (.obj [("success", .bool true), ("count", .num 0)]) rfl

/-- C10 fails on the code: on `{success: false, message: "denied"}` the actions
`startAppointment`, `suspendUser`, `activateUser`, `approveVerification` and
`rejectVerification` append no notification at all, while `cancelAppointment`
appends the error notification. None schedules a timer or navigates. -/
theorem C10_failure_is_silent :
    notified (startAppointment sampleWorld (some "7") (.json deniedResponse)).world.trace = [] ∧
    notified (suspendUser sampleWorld (some "7") true (.json deniedResponse)).world.trace = [] ∧
    notified (activateUser sampleWorld (some "7") (.json deniedResponse)).world.trace = [] ∧
    notified (approveVerification sampleWorld (some "provider") (some "7")
      (.json deniedResponse)).world.trace = [] ∧
    notified (rejectVerification sampleWorld (some "provider") (some "7") (some "duplicate")
      (.json deniedResponse)).world.trace = [] ∧
    notified (cancelAppointment sampleWorld (some "7") true (.json deniedResponse)).world.trace =
      [("error", .str "denied")] ∧
    (startAppointment sampleWorld (some "7") (.json deniedResponse)).world.timers = [] ∧
    (suspendUser sampleWorld (some "7") true (.json deniedResponse)).world.timers = [] ∧
    navigated (startAppointment sampleWorld (some "7") (.json deniedResponse)).world.trace = [] :=
  ⟨rfl, rfl, rfl, rfl, rfl, rfl, rfl, rfl, rfl⟩

/-! ## Notifications -/

/-- C7: for each of the four supported kinds and every message, one call of
`showNotification` appends exactly one node to the body, with a fresh identity,
the base classes followed by the colour classes of that kind, and that message;
the nodes already attached stay as they were. Hence a run of calls with no timer
firing in between leaves one more node per call, carrying the messages in
order. -/
theorem C7_one_entry_per_call (w : World) (type : String) (message : JsVal)
    (calls : List (String × JsVal)) (hk : type ∈ supportedKinds)
    (hcalls : ∀ c ∈ calls, c.1 ∈ supportedKinds) :
    (∃ cs, colors type = some cs ∧
      (showNotification w type message).world.body =
        w.body ++ [⟨freshId w, baseClasses ++ cs, message⟩]) ∧
    (∀ x ∈ w.body, x.id ≠ freshId w) ∧
    (∃ added, (showAll w calls).world.body = w.body ++ added ∧
      added.length = calls.length ∧
      added.map (fun x => x.message) = calls.map (fun c => c.2)) := by
  refine ⟨?_, freshId_not_in_body w, ?_⟩
  · obtain ⟨cs, hc, hcs⟩ := colors_supported type hk
    refine ⟨cs, hc, ?_⟩
    rw [showNotification_supported w type message cs hc, hcs]
    simp [World.setTimeout, World.appendNotification]
  · clear hk
    induction calls generalizing w with
    | nil => exact ⟨[], by simp [showAll]⟩
    | cons c rest ih =>
      obtain ⟨cs, hc, _⟩ := colors_supported c.1 (hcalls c (List.mem_cons_self _ _))
      have hrest : ∀ c2 ∈ rest, c2.1 ∈ supportedKinds :=
        fun c2 h2 => hcalls c2 (List.mem_cons_of_mem _ h2)
      obtain ⟨added, hb, hl, hm⟩ := ih (showNotification w c.1 c.2).world hrest
      refine ⟨⟨freshId w, classAddAll baseClasses cs, c.2⟩ :: added, ?_, ?_, ?_⟩
      · have hshow : showAll w (c :: rest) = showAll (showNotification w c.1 c.2).world rest := by
          rcases c with ⟨k, m⟩
          simp [showAll, showNotification_supported w k m cs hc]
        rw [hshow, hb, showNotification_supported w c.1 c.2 cs hc]
        simp [World.setTimeout, World.appendNotification]
      · simp [hl]
      · simp [hm]

/-- C7 at two calls on an empty page. -/
theorem C7_one_entry_per_call_witness :
    (∃ cs, colors "info" = some cs ∧
      (showNotification sampleWorld "info" (.str "Saved")).world.body =
        sampleWorld.body ++ [⟨freshId sampleWorld, baseClasses ++ cs, .str "Saved"⟩]) ∧
    (∀ x ∈ sampleWorld.body, x.id ≠ freshId sampleWorld) ∧
    (∃ added, (showAll sampleWorld
        [("success", .str "one"), ("warning", .str "two")]).world.body =
          sampleWorld.body ++ added ∧
      added.length = [("success", JsVal.str "one"), ("warning", JsVal.str "two")].length ∧
      added.map (fun x => x.message) =
        [("success", JsVal.str "one"), ("warning", JsVal.str "two")].map (fun c => c.2)) :=
  C7_one_entry_per_call sampleWorld "info" (.str "Saved")
    [("success", .str "one"), ("warning", .str "two")] (by decide) (by decide)

/-- C8 fails as stated: the notification that a successful `cancelAppointment`
creates at time 0 (node 0, the only one in the document) shares the document
with the reload the same handler schedules at 1500. It is visible at 1000, but
at 3000 the document has been replaced and the node is gone, where the claim has
it visible, and at 5000 it is gone instead of starting to exit. The notification
of a successful `startAppointment`, followed at once by an assignment to
`window.location.href`, is gone at 5000 as well. -/
theorem C8_counterexample :
    (cancelAppointment sampleWorld (some "7") true (.json okResponse)).world.now = 0 ∧
    (cancelAppointment sampleWorld (some "7") true (.json okResponse)).world.body.map
      (fun n => (n.id, n.message)) = [(0, .str "Appointment cancelled successfully")] ∧
    (cancelAppointment sampleWorld (some "7") true (.json okResponse)).world.timers =
      [⟨100, .slideIn 0⟩, ⟨5000, .slideOut 0⟩, ⟨1500, .reload⟩] ∧
    visibility (advance 1000
      (cancelAppointment sampleWorld (some "7") true (.json okResponse)).world) 0 = .visible ∧
    visibility (advance 3000
      (cancelAppointment sampleWorld (some "7") true (.json okResponse)).world) 0 = .removed ∧
    visibility (advance 5000
      (cancelAppointment sampleWorld (some "7") true (.json okResponse)).world) 0 = .removed ∧
    (startAppointment sampleWorld (some "7") (.json okResponse)).world.body.map
      (fun n => (n.id, n.message)) = [(0, .str "Appointment started")] ∧
    visibility (advance 5000
      (startAppointment sampleWorld (some "7") (.json okResponse)).world) 0 = .removed :=
  ⟨rfl, rfl, rfl, by decide, by decide, by decide, rfl, by decide⟩

/-- C8, amended: in a document that stays loaded (it has not been told to leave
by an assignment to `window.location.href` or a call of
`window.location.reload()`, and no reload is scheduled), a notification created
at time `t` by a call with a supported kind gets two timers of its own, enter at
`t + 100` and auto-exit at `t + 5000`, and no timer pending before acts on it; as
time passes with no user input it is entering before `t + 100`, visible from
`t + 100`, exiting from `t + 5000` and removed from `t + 5300` on, hence removed
at `t + 5400`. A timer of one node changes neither another node nor the timers
of another node. -/
theorem C8_notification_lifecycle (w : World) (type : String) (message : JsVal)
    (hk : type ∈ supportedKinds) (hs : staysLoaded w = true) :
    (showNotification w type message).world.timers =
      w.timers ++
        [⟨w.now + 100, .slideIn (freshId w)⟩, ⟨w.now + 5000, .slideOut (freshId w)⟩] ∧
    (∀ t ∈ w.timers, t.action.target ≠ some (freshId w)) ∧
    (∀ T, T < w.now + 100 →
      visibility (advance T (showNotification w type message).world) (freshId w) =
        .entering) ∧
    (∀ T, w.now + 100 ≤ T → T < w.now + 5000 →
      visibility (advance T (showNotification w type message).world) (freshId w) =
        .visible) ∧
    (∀ T, w.now + 5000 ≤ T → T < w.now + 5300 →
      visibility (advance T (showNotification w type message).world) (freshId w) =
        .exiting) ∧
    (∀ T, w.now + 5300 ≤ T →
      visibility (advance T (showNotification w type message).world) (freshId w) =
        .removed) ∧
    visibility (advance (w.now + 5400) (showNotification w type message).world) (freshId w) =
      .removed ∧
    (∀ (v : World) (x : Timer) (i j : Nat), x.action.target = some i → j ≠ i →
      findNode (fire v x) j = findNode v j ∧
        timersOf j (fire v x).timers = timersOf j v.timers) := by
  obtain ⟨cs, hc, hcs⟩ := colors_supported type hk
  have hall := fun T => visibility_after w type message cs T hc hcs hs
  refine ⟨?_, freshId_not_in_timers w, ?_, ?_, ?_, ?_, ?_, ?_⟩
  · rw [showNotification_supported w type message cs hc]
    simp [World.setTimeout, World.appendNotification]
  · intro T h1
    rcases hall T with h | h | h | h
    · exact h.1
    · omega
    · omega
    · omega
  · intro T h1 h2
    rcases hall T with h | h | h | h
    · omega
    · exact h.1
    · omega
    · omega
  · intro T h1 h2
    rcases hall T with h | h | h | h
    · omega
    · omega
    · exact h.1
    · omega
  · intro T h1
    rcases hall T with h | h | h | h
    · omega
    · omega
    · omega
    · exact h.1
  · rcases hall (w.now + 5400) with h | h | h | h
    · omega
    · omega
    · omega
    · exact h.1
  · intro v x i j hx hj
    have hne : x.action.target ≠ some j := by
      rw [hx]
      intro hc2
      exact hj (Option.some.inj hc2).symm
    have hr : x.action ≠ .reload := by
      intro hc2
      rw [hc2] at hx
      exact nomatch hx
    exact ⟨findNode_fire_other v x j hr hne, timersOf_fire_other v x j hr hne⟩

/-- C8 at a notification of kind success in a document that already shows one
and stays loaded. -/
theorem C8_notification_lifecycle_witness :
    "success" ∈ supportedKinds ∧
    staysLoaded (showNotification sampleWorld "error" (.str "first")).world = true ∧
    visibility (advance 5400
      (showNotification (showNotification sampleWorld "error" (.str "first")).world
        "success" (.str "second")).world)
      (freshId (showNotification sampleWorld "error" (.str "first")).world) = .removed :=
  ⟨by decide, by decide,
   (C8_notification_lifecycle (showNotification sampleWorld "error" (.str "first")).world
      "success" (.str "second") (by decide) (by decide)).2.2.2.2.2.2.1⟩

/-- C9 fails as stated: a kind outside the table, here `danger`, makes the call
raise a TypeError before anything is appended. -/
theorem C9_counterexample :
    (showNotification sampleWorld "danger" (.str "Disk full")).result = .error .typeError ∧
    (showNotification sampleWorld "danger" (.str "Disk full")).world.body = [] :=
  ⟨rfl, rfl⟩

/-- C9, amended: for each of the four supported kinds and every message, the
call of `showNotification` completes without raising. -/
theorem C9_supported_kinds_do_not_raise (w : World) (type : String) (message : JsVal)
    (hk : type ∈ supportedKinds) :
    (showNotification w type message).result = .ok () := by
  obtain ⟨cs, hc, _⟩ := colors_supported type hk
  rw [showNotification_supported w type message cs hc]

/-- C9, amended, at kind `warning`. -/
theorem C9_supported_kinds_do_not_raise_witness :
    "warning" ∈ supportedKinds ∧
      (showNotification sampleWorld "warning" (.str "Disk full")).result = .ok () :=
  ⟨by decide, C9_supported_kinds_do_not_raise sampleWorld "warning" (.str "Disk full")
    (by decide)⟩

/-! ## Errors raised by a request -/

theorem logged_append (xs ys : List Effect) : logged (xs ++ ys) = logged xs ++ logged ys := by
  induction xs with
  | nil => rfl
  | cons e es ih => cases e <;> simp [logged, ih]

/-- An outcome that is not a parsed body raises. -/
theorem toExcept_raises (o : FetchOutcome) (h : o = .rejected ∨ o = .unparsable) :
    ∃ e, o.toExcept = .error e := by
  rcases h with h | h <;> subst h
  · exact ⟨_, rfl⟩
  · exact ⟨_, rfl⟩

/-- The log-and-notify catch block after a `try` that raised having only called
fetch. -/
theorem catchNotify_raised (w : World) (req : Request) (e : JsError) (label text : String) :
    CaughtAndLogged w (catchNotify ⟨w.log (.fetch req), .error e⟩ label text) label
      [("error", .str text)] := by
  simp [CaughtAndLogged, catchNotify, showNotification_error, World.log, World.setTimeout,
    World.appendNotification, logged_append, logged, notified_append, notified]

/-- The log-only catch block after a `try` that raised having only called fetch. -/
theorem catchLog_raised (w : World) (req : Request) (e : JsError) (label : String) :
    CaughtAndLogged w (catchLog ⟨w.log (.fetch req), .error e⟩ label) label [] := by
  simp [CaughtAndLogged, catchLog, World.log, logged_append, logged, notified_append, notified]

/-- A dialog shown first changes neither the log nor the notifications. -/
theorem caught_after_dialog (w : World) (d : Effect) (r : Run) (label : String)
    (shown : List (String × JsVal))
    (hd : logged [d] = [] ∧ notified [d] = [])
    (h : CaughtAndLogged (w.log d) r label shown) : CaughtAndLogged w r label shown := by
  obtain ⟨h1, h2, h3⟩ := h
  refine ⟨h1, ?_, ?_⟩
  · rw [h2]; simp [World.log, logged_append, hd.1]
  · rw [h3]; simp [World.log, notified_append, hd.2]

/-- C11 fails as stated: when the request of `refreshPatientQueue`,
`refreshSystemStats` or `updateTaskStatus` is rejected, the error is caught and
logged and no notification is shown. -/
theorem C11_counterexample :
    notified (refreshPatientQueue sampleWorld samplePage [] .rejected).1.world.trace = [] ∧
    logged (refreshPatientQueue sampleWorld samplePage [] .rejected).1.world.trace =
      ["Error refreshing patient queue:"] ∧
    notified (refreshSystemStats sampleWorld [] .rejected).1.world.trace = [] ∧
    logged (refreshSystemStats sampleWorld [] .rejected).1.world.trace =
      ["Error refreshing system stats:"] ∧
    notified (updateTaskStatus sampleWorld (some "3") "completed" .rejected).world.trace = [] ∧
    logged (updateTaskStatus sampleWorld (some "3") "completed" .rejected).world.trace =
      ["Error updating task:"] :=
  ⟨rfl, rfl, rfl, rfl, rfl, rfl⟩

/-- C11, amended: when the fetch or the JSON parsing raises, every one of the
twelve operations catches the error, logs it with its own label and completes
(the error is not rethrown). Form submission, doctor search, cancel, start,
organization stats, suspend, activate, approve and reject then show one generic
error notification; task update, queue refresh and system stats show none. -/
theorem C11_errors_caught_and_logged (w : World) (o : FetchOutcome)
    (ho : o = .rejected ∨ o = .unparsable)
    (form : Form) (dom : SearchDom) (formData : List (String × String))
    (id type : Option String) (taskId status reason : String)
    (page : ProviderPage) (fragment : List (Option String × Option String))
    (nodes : List StatNode) (htask : taskId ≠ "") (hreason : reason ≠ "") :
    CaughtAndLogged w (handleAjaxForm w form o).1 "Form submission error:"
      [("error", .str "An unexpected error occurred")] ∧
    CaughtAndLogged w ⟨(doctorSearchSubmit w dom formData o).world,
        (doctorSearchSubmit w dom formData o).result⟩ "Error searching doctors:"
      [("error", .str "Failed to search doctors. Please try again.")] ∧
    CaughtAndLogged w (cancelAppointment w id true o) "Error cancelling appointment:"
      [("error", .str "An error occurred while cancelling the appointment")] ∧
    CaughtAndLogged w (startAppointment w id o) "Error starting appointment:"
      [("error", .str "Failed to start appointment")] ∧
    CaughtAndLogged w (refreshOrganizationStats w nodes o).1 "Error refreshing stats:"
      [("error", .str "Failed to refresh stats")] ∧
    CaughtAndLogged w (suspendUser w id true o) "Error suspending user:"
      [("error", .str "Failed to suspend user")] ∧
    CaughtAndLogged w (activateUser w id o) "Error activating user:"
      [("error", .str "Failed to activate user")] ∧
    CaughtAndLogged w (approveVerification w type id o) "Error approving verification:"
      [("error", .str "Failed to approve verification")] ∧
    CaughtAndLogged w (rejectVerification w type id (some reason) o)
      "Error rejecting verification:" [("error", .str "Failed to reject verification")] ∧
    CaughtAndLogged w (updateTaskStatus w (some taskId) status o) "Error updating task:" [] ∧
    CaughtAndLogged w (refreshPatientQueue w page fragment o).1
      "Error refreshing patient queue:" [] ∧
    CaughtAndLogged w (refreshSystemStats w nodes o).1 "Error refreshing system stats:" [] := by
  obtain ⟨e, he⟩ := toExcept_raises o ho
  refine ⟨?_, ?_, ?_, ?_, ?_, ?_, ?_, ?_, ?_, ?_, ?_, ?_⟩
  · simp only [handleAjaxForm, ajaxTry, he]
    exact catchNotify_raised w _ e _ _
  · simp [CaughtAndLogged, doctorSearchSubmit, searchTry, he, showNotification_error, World.log,
      World.setTimeout, World.appendNotification, logged_append, logged, notified_append,
      notified]
  · apply caught_after_dialog w (.confirm "Are you sure you want to cancel this appointment?")
      _ _ _ ⟨rfl, rfl⟩
    simp only [cancelAppointment, cancelTry, he, Bool.not_true, Bool.false_eq_true, if_false]
    exact catchNotify_raised _ _ e _ _
  · simp only [startAppointment, startTry, he]
    exact catchNotify_raised w _ e _ _
  · simp only [refreshOrganizationStats, statsTry, he]
    exact catchNotify_raised w _ e _ _
  · apply caught_after_dialog w (.confirm "Are you sure you want to suspend this user?")
      _ _ _ ⟨rfl, rfl⟩
    simp only [suspendUser, postThenReloadTry, he, Bool.not_true, Bool.false_eq_true, if_false]
    exact catchNotify_raised _ _ e _ _
  · simp only [activateUser, postThenReloadTry, he]
    exact catchNotify_raised w _ e _ _
  · simp only [approveVerification, postThenReloadTry, he]
    exact catchNotify_raised w _ e _ _
  · apply caught_after_dialog w (.prompt "Please provide a reason for rejection:")
      _ _ _ ⟨rfl, rfl⟩
    simp only [rejectVerification, postThenReloadTry, he, hreason, if_false]
    exact catchNotify_raised _ _ e _ _
  · simp only [updateTaskStatus, updateTaskTry, he, htask, if_false]
    exact catchLog_raised w _ e _
  · simp only [refreshPatientQueue, refreshQueueTry, he]
    exact catchLog_raised w _ e _
  · simp only [refreshSystemStats, statsTry, he]
    exact catchLog_raised w _ e _

/-- C11, amended, at a rejected fetch on sample inputs. -/
theorem C11_errors_caught_and_logged_witness :
    CaughtAndLogged sampleWorld (startAppointment sampleWorld (some "7") .rejected)
      "Error starting appointment:" [("error", .str "Failed to start appointment")] ∧
    CaughtAndLogged sampleWorld (refreshSystemStats sampleWorld [] .rejected).1
      "Error refreshing system stats:" [] :=
  have h := C11_errors_caught_and_logged sampleWorld .rejected (Or.inl rfl) sampleForm sampleDom
    [] (some "7") (some "provider") "3" "completed" "duplicate" samplePage [] []
    (by decide) (by decide)
  ⟨h.2.2.2.1, h.2.2.2.2.2.2.2.2.2.2.2⟩

/-! ## Clicks on action elements -/

/-- C12 fails on the code: a click on an element with an action name and no
identifier attribute still navigates, or still calls fetch, with the text
`undefined` in place of the identifier; only the task checkbox, whose
`updateTaskStatus` tests the identifier first, does nothing. -/
theorem C12_missing_identifier_still_acts :
    navigated (appointmentActionClick sampleWorld (some "video") Option.none true
        .rejected).world.trace = [.str "/appointments/video/undefined/"] ∧
    (fetches (appointmentActionClick sampleWorld (some "cancel") Option.none true
        .rejected).world.trace).map (fun r => (r.method, r.url)) =
      [("POST", "/api/appointments/cancel/undefined/")] ∧
    notified (appointmentActionClick sampleWorld (some "cancel") Option.none true
        .rejected).world.trace =
      [("error", .str "An error occurred while cancelling the appointment")] ∧
    navigated (providerActionClick sampleWorld (some "edit") Option.none).world.trace =
      [.str "/providers/undefined/edit/"] ∧
    navigated (locationActionClick sampleWorld (some "view") Option.none).world.trace =
      [.str "/locations/undefined/"] ∧
    (fetches (userActionClick sampleWorld (some "activate") Option.none true
        (.json (.obj [("success", .bool true)]))).world.trace).map (fun r => (r.method, r.url)) =
      [("POST", "/api/admin/users/undefined/activate/")] ∧
    (fetches (verificationActionClick sampleWorld (some "approve") Option.none Option.none
        Option.none (.json (.obj [("success", .bool true)]))).world.trace).map
        (fun r => (r.method, r.url)) =
      [("POST", "/api/admin/verify/undefined/undefined/approve/")] ∧
    (taskCheckboxChange sampleWorld ⟨true, Option.none, []⟩ .rejected).1.world.trace = [] :=
  ⟨rfl, rfl, rfl, rfl, rfl, rfl, rfl, rfl⟩

theorem effectsOf_append (w : World) (r : Run) (es : List Effect)
    (h : r.world.trace = w.trace ++ es) : effectsOf w r = es := by
  simp [effectsOf, h]

/-- The shared request block when the request raises: fetch, log, error notification. -/
theorem post_raise_trace (w : World) (url : String) (body : Body) (done label text : String)
    (o : FetchOutcome) (e : JsError) (he : o.toExcept = .error e) :
    (catchNotify (postThenReloadTry w url body done o) label text).world.trace =
      w.trace ++ [.fetch (postRequest w url body), .consoleError label,
        .notify "error" (.str text)] := by
  simp [catchNotify, postThenReloadTry, he, showNotification_error, World.log,
    World.setTimeout, World.appendNotification]

/-- The shared request block on a truthy `success`: fetch, success notification,
and the reload timer. -/
theorem post_truthy_trace (w : World) (url : String) (body : Body) (done label text : String)
    (data success : JsVal) (hs : getProp data "success" = .ok success)
    (ht : truthy success = true) :
    (catchNotify (postThenReloadTry w url body done (.json data)) label text).world.trace =
        w.trace ++ [.fetch (postRequest w url body), .notify "success" (.str done)] ∧
      (⟨w.now + 1500, .reload⟩ : Timer) ∈
        (catchNotify (postThenReloadTry w url body done (.json data)) label text).world.timers := by
  simp [catchNotify, postThenReloadTry, FetchOutcome.toExcept, hs, ht, showNotification_success,
    World.log, World.setTimeout, World.appendNotification]

theorem cancel_raise_trace (w : World) (id : Option String) (o : FetchOutcome) (e : JsError)
    (he : o.toExcept = .error e) :
    (cancelAppointment w id true o).world.trace =
      w.trace ++ [.confirm "Are you sure you want to cancel this appointment?",
        .fetch (postRequest w ("/api/appointments/cancel/" ++ interp id ++ "/") .none),
        .consoleError "Error cancelling appointment:",
        .notify "error" (.str "An error occurred while cancelling the appointment")] := by
  simp [cancelAppointment, cancelTry, catchNotify, he, showNotification_error, World.log,
    World.setTimeout, World.appendNotification, postRequest]

theorem cancel_truthy_trace (w : World) (id : Option String) (data success : JsVal)
    (hs : getProp data "success" = .ok success) (ht : truthy success = true) :
    (cancelAppointment w id true (.json data)).world.trace =
        w.trace ++ [.confirm "Are you sure you want to cancel this appointment?",
          .fetch (postRequest w ("/api/appointments/cancel/" ++ interp id ++ "/") .none),
          .notify "success" (.str "Appointment cancelled successfully")] ∧
      (⟨w.now + 1500, .reload⟩ : Timer) ∈ (cancelAppointment w id true (.json data)).world.timers := by
  simp [cancelAppointment, cancelTry, catchNotify, FetchOutcome.toExcept, hs, ht,
    showNotification_success, World.log, World.setTimeout, World.appendNotification, postRequest]

theorem start_raise_trace (w : World) (id : Option String) (o : FetchOutcome) (e : JsError)
    (he : o.toExcept = .error e) :
    (startAppointment w id o).world.trace =
      w.trace ++ [.fetch (postRequest w ("/api/appointments/start/" ++ interp id ++ "/") .none),
        .consoleError "Error starting appointment:",
        .notify "error" (.str "Failed to start appointment")] := by
  simp [startAppointment, startTry, catchNotify, he, showNotification_error, World.log,
    World.setTimeout, World.appendNotification]

theorem start_truthy_trace (w : World) (id : Option String) (data success : JsVal)
    (hs : getProp data "success" = .ok success) (ht : truthy success = true) :
    (startAppointment w id (.json data)).world.trace =
      w.trace ++ [.fetch (postRequest w ("/api/appointments/start/" ++ interp id ++ "/") .none),
        .notify "success" (.str "Appointment started"),
        .navigate (.str ("/appointments/session/" ++ interp id ++ "/"))] := by
  simp [startAppointment, startTry, catchNotify, FetchOutcome.toExcept, hs, ht,
    showNotification_success, World.log, World.setTimeout, World.appendNotification]

theorem click_navigateOnly (w : World) (s : DashboardSection) (c : ClickInput)
    (h : navigateOnly s c.action = true) :
    ∃ url, (clickAction w s c).world.trace = w.trace ++ [.navigate (.str url)] := by
  rcases c with ⟨action, id, type, confirmed, reason, outcome⟩
  cases s <;> simp only [navigateOnly, Bool.or_eq_true, beq_iff_eq] at h <;>
    (try casesm* _ ∨ _) <;> subst_vars <;>
    simp [clickAction, appointmentActionClick, providerAppointmentClick, quickActionClick,
        providerActionClick, locationActionClick, userActionClick, verificationActionClick,
        startVideoCall, rescheduleAppointment, viewAppointmentDetails, completeAppointment,
        openAppointmentNotes, viewVerificationDetails, navigateTo, World.log]

theorem click_unknown (w : World) (s : DashboardSection) (c : ClickInput)
    (h1 : navigateOnly s c.action = false) (h2 : fetchAction s c.action = false) :
    clickAction w s c = ⟨w, .ok ()⟩ := by
  rcases c with ⟨action, id, type, confirmed, reason, outcome⟩
  cases s <;> simp only [navigateOnly, fetchAction, Bool.or_eq_false_iff, beq_eq_false_iff_ne,
      ne_eq] at h1 h2 <;>
    simp [clickAction, appointmentActionClick, providerAppointmentClick, quickActionClick,
        providerActionClick, locationActionClick, userActionClick, verificationActionClick, h1, h2]

theorem click_declined (w : World) (s : DashboardSection) (c : ClickInput)
    (h1 : fetchAction s c.action = true) (h2 : dialogAccepted s c = false) :
    (∃ m, (clickAction w s c).world.trace = w.trace ++ [.confirm m]) ∨
    (∃ m, (clickAction w s c).world.trace = w.trace ++ [.prompt m]) := by
  rcases c with ⟨action, id, type, confirmed, reason, outcome⟩
  cases s <;> simp only [fetchAction, Bool.or_eq_true, beq_iff_eq, Bool.false_eq_true] at h1
  · subst h1
    simp only [dialogAccepted] at h2
    subst h2
    left
    simp [clickAction, appointmentActionClick, cancelAppointment, World.log]
  · subst h1
    simp [dialogAccepted] at h2
  · rcases h1 with h1 | h1 <;> subst h1
    · simp only [dialogAccepted, beq_self_eq_true, if_true] at h2
      subst h2
      left
      simp [clickAction, userActionClick, suspendUser, World.log]
    · simp [dialogAccepted] at h2
  · rcases h1 with h1 | h1 <;> subst h1
    · simp [dialogAccepted] at h2
    · right
      cases reason with
      | none => simp [clickAction, verificationActionClick, rejectVerification, World.log]
      | some r =>
        simp [dialogAccepted] at h2
        subst h2
        simp [clickAction, verificationActionClick, rejectVerification, World.log]
theorem trace_after_dialog (w : World) (d : Effect) (r : Run) (es : List Effect)
    (h : r.world.trace = (w.log d).trace ++ es) : r.world.trace = w.trace ++ d :: es := by
  simp [h, World.log]

theorem click_raise (w : World) (s : DashboardSection) (c : ClickInput) (e : JsError)
    (h1 : fetchAction s c.action = true) (h2 : dialogAccepted s c = true)
    (he : c.outcome.toExcept = .error e) :
    navigated (effectsOf w (clickAction w s c)) = [] ∧
    (∃ text, notified (effectsOf w (clickAction w s c)) = [("error", .str text)]) ∧
    (fetches (effectsOf w (clickAction w s c))).length = 1 := by
  rcases c with ⟨action, id, type, confirmed, reason, outcome⟩
  simp only at he
  cases s <;> simp only [fetchAction, Bool.or_eq_true, beq_iff_eq, Bool.false_eq_true] at h1
  · subst h1
    simp only [dialogAccepted] at h2
    subst h2
    have ht := cancel_raise_trace w id outcome e he
    have hc : clickAction w .patientAppointments ⟨some "cancel", id, type, true, reason, outcome⟩ =
        cancelAppointment w id true outcome := by
      simp [clickAction, appointmentActionClick]
    rw [hc, effectsOf_append _ _ _ ht]
    exact ⟨rfl, ⟨_, rfl⟩, rfl⟩
  · subst h1
    have ht := start_raise_trace w id outcome e he
    have hc : clickAction w .providerAppointments ⟨some "start", id, type, confirmed, reason, outcome⟩ =
        startAppointment w id outcome := by
      simp [clickAction, providerAppointmentClick]
    rw [hc, effectsOf_append _ _ _ ht]
    exact ⟨rfl, ⟨_, rfl⟩, rfl⟩
  · rcases h1 with h1 | h1 <;> subst h1
    · simp only [dialogAccepted, beq_self_eq_true, if_true] at h2
      subst h2
      have ht := post_raise_trace
        (w.log (.confirm "Are you sure you want to suspend this user?"))
        ("/api/admin/users/" ++ interp id ++ "/suspend/") .none "User suspended successfully"
        "Error suspending user:" "Failed to suspend user" outcome e he
      have hc : clickAction w .userManagement ⟨some "suspend", id, type, true, reason, outcome⟩ =
          suspendUser w id true outcome := by
        simp [clickAction, userActionClick]
      rw [hc]
      simp only [suspendUser, Bool.not_true, Bool.false_eq_true, if_false]
      rw [effectsOf_append _ _ _ (trace_after_dialog _ _ _ _ ht)]
      exact ⟨rfl, ⟨_, rfl⟩, rfl⟩
    · have ht := post_raise_trace w
        ("/api/admin/users/" ++ interp id ++ "/activate/") .none "User activated successfully"
        "Error activating user:" "Failed to activate user" outcome e he
      have hc : clickAction w .userManagement ⟨some "activate", id, type, confirmed, reason, outcome⟩ =
          activateUser w id outcome := by
        simp [clickAction, userActionClick]
      rw [hc]
      simp only [activateUser]
      rw [effectsOf_append _ _ _ ht]
      exact ⟨rfl, ⟨_, rfl⟩, rfl⟩
  · rcases h1 with h1 | h1 <;> subst h1
    · have ht := post_raise_trace w
        ("/api/admin/verify/" ++ interp type ++ "/" ++ interp id ++ "/approve/") .none
        "Verification approved" "Error approving verification:" "Failed to approve verification"
        outcome e he
      have hc : clickAction w .verificationQueue ⟨some "approve", id, type, confirmed, reason, outcome⟩ =
          approveVerification w type id outcome := by
        simp [clickAction, verificationActionClick]
      rw [hc]
      simp only [approveVerification]
      rw [effectsOf_append _ _ _ ht]
      exact ⟨rfl, ⟨_, rfl⟩, rfl⟩
    · cases reason with
      | none => simp [dialogAccepted] at h2
      | some r =>
        have hr : r ≠ "" := by simpa [dialogAccepted] using h2
        have ht := post_raise_trace
          (w.log (.prompt "Please provide a reason for rejection:"))
          ("/api/admin/verify/" ++ interp type ++ "/" ++ interp id ++ "/reject/")
          (.json (.obj [("reason", .str r)]))
          "Verification rejected" "Error rejecting verification:" "Failed to reject verification"
          outcome e he
        have hc : clickAction w .verificationQueue ⟨some "reject", id, type, confirmed, some r, outcome⟩ =
            rejectVerification w type id (some r) outcome := by
          simp [clickAction, verificationActionClick]
        rw [hc]
        simp only [rejectVerification, hr, if_false]
        rw [effectsOf_append _ _ _ (trace_after_dialog _ _ _ _ ht)]
        exact ⟨rfl, ⟨_, rfl⟩, rfl⟩
theorem click_truthy (w : World) (s : DashboardSection) (c : ClickInput) (data success : JsVal)
    (h1 : fetchAction s c.action = true) (h2 : dialogAccepted s c = true)
    (ho : c.outcome = .json data) (hs : getProp data "success" = .ok success)
    (ht : truthy success = true) :
    (∃ text, notified (effectsOf w (clickAction w s c)) = [("success", .str text)]) ∧
    (fetches (effectsOf w (clickAction w s c))).length = 1 ∧
    (s = .providerAppointments →
      ∃ url, navigated (effectsOf w (clickAction w s c)) = [.str url]) ∧
    (s ≠ .providerAppointments →
      navigated (effectsOf w (clickAction w s c)) = [] ∧
        (⟨w.now + 1500, .reload⟩ : Timer) ∈ (clickAction w s c).world.timers) := by
  rcases c with ⟨action, id, type, confirmed, reason, outcome⟩
  simp only at ho
  subst ho
  cases s <;> simp only [fetchAction, Bool.or_eq_true, beq_iff_eq, Bool.false_eq_true] at h1
  · subst h1
    simp only [dialogAccepted] at h2
    subst h2
    obtain ⟨htr, htm⟩ := cancel_truthy_trace w id data success hs ht
    have hc : clickAction w .patientAppointments
        ⟨some "cancel", id, type, true, reason, .json data⟩ =
        cancelAppointment w id true (.json data) := by
      simp [clickAction, appointmentActionClick]
    rw [hc, effectsOf_append _ _ _ htr]
    exact ⟨⟨_, rfl⟩, rfl, (fun h => nomatch h), (fun _ => ⟨rfl, htm⟩)⟩
  · subst h1
    have htr := start_truthy_trace w id data success hs ht
    have hc : clickAction w .providerAppointments
        ⟨some "start", id, type, confirmed, reason, .json data⟩ =
        startAppointment w id (.json data) := by
      simp [clickAction, providerAppointmentClick]
    rw [hc, effectsOf_append _ _ _ htr]
    exact ⟨⟨_, rfl⟩, rfl, fun _ => ⟨_, rfl⟩, fun h => absurd rfl h⟩
  · rcases h1 with h1 | h1 <;> subst h1
    · simp only [dialogAccepted, beq_self_eq_true, if_true] at h2
      subst h2
      obtain ⟨htr, htm⟩ := post_truthy_trace
        (w.log (.confirm "Are you sure you want to suspend this user?"))
        ("/api/admin/users/" ++ interp id ++ "/suspend/") .none "User suspended successfully"
        "Error suspending user:" "Failed to suspend user" data success hs ht
      have hc : clickAction w .userManagement
          ⟨some "suspend", id, type, true, reason, .json data⟩ =
          suspendUser w id true (.json data) := by
        simp [clickAction, userActionClick]
      rw [hc]
      simp only [suspendUser, Bool.not_true, Bool.false_eq_true, if_false]
      rw [effectsOf_append _ _ _ (trace_after_dialog _ _ _ _ htr)]
      exact ⟨⟨_, rfl⟩, rfl, (fun h => nomatch h), (fun _ => ⟨rfl, htm⟩)⟩
    · obtain ⟨htr, htm⟩ := post_truthy_trace w
        ("/api/admin/users/" ++ interp id ++ "/activate/") .none "User activated successfully"
        "Error activating user:" "Failed to activate user" data success hs ht
      have hc : clickAction w .userManagement
          ⟨some "activate", id, type, confirmed, reason, .json data⟩ =
          activateUser w id (.json data) := by
        simp [clickAction, userActionClick]
      rw [hc]
      simp only [activateUser]
      rw [effectsOf_append _ _ _ htr]
      exact ⟨⟨_, rfl⟩, rfl, (fun h => nomatch h), (fun _ => ⟨rfl, htm⟩)⟩
  · rcases h1 with h1 | h1 <;> subst h1
    · obtain ⟨htr, htm⟩ := post_truthy_trace w
        ("/api/admin/verify/" ++ interp type ++ "/" ++ interp id ++ "/approve/") .none
        "Verification approved" "Error approving verification:" "Failed to approve verification"
        data success hs ht
      have hc : clickAction w .verificationQueue
          ⟨some "approve", id, type, confirmed, reason, .json data⟩ =
          approveVerification w type id (.json data) := by
        simp [clickAction, verificationActionClick]
      rw [hc]
      simp only [approveVerification]
      rw [effectsOf_append _ _ _ htr]
      exact ⟨⟨_, rfl⟩, rfl, (fun h => nomatch h), (fun _ => ⟨rfl, htm⟩)⟩
    · cases reason with
      | none => simp [dialogAccepted] at h2
      | some r =>
        have hr : r ≠ "" := by simpa [dialogAccepted] using h2
        obtain ⟨htr, htm⟩ := post_truthy_trace
          (w.log (.prompt "Please provide a reason for rejection:"))
          ("/api/admin/verify/" ++ interp type ++ "/" ++ interp id ++ "/reject/")
          (.json (.obj [("reason", .str r)]))
          "Verification rejected" "Error rejecting verification:" "Failed to reject verification"
          data success hs ht
        have hc : clickAction w .verificationQueue
            ⟨some "reject", id, type, confirmed, some r, .json data⟩ =
            rejectVerification w type id (some r) (.json data) := by
          simp [clickAction, verificationActionClick]
        rw [hc]
        simp only [rejectVerification, hr, if_false]
        rw [effectsOf_append _ _ _ (trace_after_dialog _ _ _ _ htr)]
        exact ⟨⟨_, rfl⟩, rfl, (fun h => nomatch h), (fun _ => ⟨rfl, htm⟩)⟩

theorem cancel_falsy_trace (w : World) (id : Option String) (data success : JsVal)
    (hs : getProp data "success" = .ok success) (ht : truthy success = false) :
    (cancelAppointment w id true (.json data)).world.trace =
      w.trace ++ [.confirm "Are you sure you want to cancel this appointment?",
        .fetch (postRequest w ("/api/appointments/cancel/" ++ interp id ++ "/") .none),
        .notify "error" (jsOr (field data "message") (.str "Failed to cancel appointment"))] := by
  have hm := getProp_of_ok hs "message"
  simp [cancelAppointment, cancelTry, catchNotify, FetchOutcome.toExcept, hs, ht, hm,
    showNotification_error, World.log, World.setTimeout, World.appendNotification, postRequest]

/-- C13 fails as stated: a cancel click with the confirmation declined and a
click with an action name the section does not list end in none of the three
outcomes, and a start click answered with success ends in two of them. -/
theorem C13_counterexample :
    outcomeCount (clickEffects sampleWorld .patientAppointments
      ⟨some "cancel", some "7", Option.none, false, Option.none,
        .json (.obj [("success", .bool true)])⟩) = 0 ∧
    outcomeCount (clickEffects sampleWorld .userManagement
      ⟨some "delete", some "7", Option.none, true, Option.none,
        .json (.obj [("success", .bool true)])⟩) = 0 ∧
    outcomeCount (clickEffects sampleWorld .providerAppointments
      ⟨some "start", some "7", Option.none, true, Option.none,
        .json (.obj [("success", .bool true)])⟩) = 2 :=
  ⟨rfl, rfl, rfl⟩

/-- C13, amended: a click on a navigation-only action ends in exactly one
outcome, navigate. A click on a request action whose dialog (if it has one) is
accepted ends in exactly one outcome, notify-error, when the request raises; in
exactly one outcome, the success notification followed by a reload scheduled
1500 ms later, when `success` is truthy and the action is not start; in two
outcomes, the success notification and then a navigation, when the action is
start and `success` is truthy; and in exactly one outcome, notify-error, when
the action is cancel and `success` is falsy. A click on a request action whose
dialog is declined calls no fetch and ends in none of the outcomes, and a click
with an action name the section does not list does nothing at all. -/
theorem C13_click_outcomes (w : World) (s : DashboardSection) (c : ClickInput) :
    (navigateOnly s c.action = true →
      outcomeCount (clickEffects w s c) = 1 ∧ navigates (clickEffects w s c) = true) ∧
    (fetchAction s c.action = true → dialogAccepted s c = true →
      (c.outcome = .rejected ∨ c.outcome = .unparsable) →
      outcomeCount (clickEffects w s c) = 1 ∧ notifiesError (clickEffects w s c) = true) ∧
    (fetchAction s c.action = true → dialogAccepted s c = true → s ≠ .providerAppointments →
      ∀ data success, c.outcome = .json data → getProp data "success" = .ok success →
        truthy success = true →
        outcomeCount (clickEffects w s c) = 1 ∧ notifiesSuccess (clickEffects w s c) = true ∧
          (⟨w.now + 1500, .reload⟩ : Timer) ∈ (clickAction w s c).world.timers) ∧
    (fetchAction s c.action = true → s = .providerAppointments →
      ∀ data success, c.outcome = .json data → getProp data "success" = .ok success →
        truthy success = true →
        outcomeCount (clickEffects w s c) = 2 ∧ notifiesSuccess (clickEffects w s c) = true ∧
          navigates (clickEffects w s c) = true) ∧
    (fetchAction s c.action = true → dialogAccepted s c = true → s = .patientAppointments →
      ∀ data success, c.outcome = .json data → getProp data "success" = .ok success →
        truthy success = false →
        outcomeCount (clickEffects w s c) = 1 ∧ notifiesError (clickEffects w s c) = true) ∧
    (fetchAction s c.action = true → dialogAccepted s c = false →
      outcomeCount (clickEffects w s c) = 0 ∧ fetches (clickEffects w s c) = []) ∧
    (navigateOnly s c.action = false → fetchAction s c.action = false →
      clickEffects w s c = [] ∧ (clickAction w s c).world = w) := by
  refine ⟨?_, ?_, ?_, ?_, ?_, ?_, ?_⟩
  · intro h
    obtain ⟨url, hu⟩ := click_navigateOnly w s c h
    rw [clickEffects, effectsOf_append _ _ _ hu]
    exact ⟨rfl, rfl⟩
  · intro h1 h2 ho
    obtain ⟨e, he⟩ := toExcept_raises c.outcome ho
    obtain ⟨hn, ⟨text, hm⟩, _⟩ := click_raise w s c e h1 h2 he
    simp [clickEffects, outcomeCount, navigates, notifiesSuccess, notifiesError, hn, hm]
  · intro h1 h2 hne data success ho hs ht
    obtain ⟨⟨text, hm⟩, _, _, hrest⟩ := click_truthy w s c data success h1 h2 ho hs ht
    obtain ⟨hn, htm⟩ := hrest hne
    simp [clickEffects, outcomeCount, navigates, notifiesSuccess, notifiesError, hn, hm, htm]
  · intro h1 hst data success ho hs ht
    have h2 : dialogAccepted s c = true := by subst hst; rfl
    obtain ⟨⟨text, hm⟩, _, hnav, _⟩ := click_truthy w s c data success h1 h2 ho hs ht
    obtain ⟨url, hn⟩ := hnav hst
    simp [clickEffects, outcomeCount, navigates, notifiesSuccess, notifiesError, hn, hm]
  · intro h1 h2 hst data success ho hs ht
    rcases c with ⟨action, id, type, confirmed, reason, outcome⟩
    subst hst
    simp only at ho
    subst ho
    simp only [fetchAction, beq_iff_eq] at h1
    subst h1
    simp only [dialogAccepted] at h2
    subst h2
    have hc : clickAction w .patientAppointments
        ⟨some "cancel", id, type, true, reason, .json data⟩ =
        cancelAppointment w id true (.json data) := by
      simp [clickAction, appointmentActionClick]
    rw [clickEffects, hc, effectsOf_append _ _ _ (cancel_falsy_trace w id data success hs ht)]
    exact ⟨rfl, rfl⟩
  · intro h1 h2
    rcases click_declined w s c h1 h2 with ⟨m, hm⟩ | ⟨m, hm⟩
    · rw [clickEffects, effectsOf_append _ _ _ hm]
      exact ⟨rfl, rfl⟩
    · rw [clickEffects, effectsOf_append _ _ _ hm]
      exact ⟨rfl, rfl⟩
  · intro h1 h2
    rw [clickEffects, click_unknown w s c h1 h2]
    simp [effectsOf]

/-- C13, amended, at a click on the video action of a patient appointment. -/
theorem C13_click_outcomes_witness :
    outcomeCount (clickEffects sampleWorld .patientAppointments
      ⟨some "video", some "7", Option.none, false, Option.none, .rejected⟩) = 1 ∧
    navigates (clickEffects sampleWorld .patientAppointments
      ⟨some "video", some "7", Option.none, false, Option.none, .rejected⟩) = true :=
  (C13_click_outcomes sampleWorld .patientAppointments
    ⟨some "video", some "7", Option.none, false, Option.none, .rejected⟩).1 rfl

/-! ## Cookies -/

theorem splitOnChar_ne_nil (sep : Char) (cs : List Char) : splitOnChar sep cs ≠ [] := by
  induction cs with
  | nil => simp [splitOnChar]
  | cons c cs ih =>
    simp only [splitOnChar]
    split
    · simp
    · split <;> simp

theorem splitOnChar_of_not_mem (sep : Char) (a : List Char) (h : sep ∉ a) :
    splitOnChar sep a = [a] := by
  induction a with
  | nil => rfl
  | cons c cs ih =>
    have hc : ¬ c = sep := fun hc => h (by simp [hc])
    have hcs : sep ∉ cs := fun hm => h (List.mem_cons_of_mem _ hm)
    simp [splitOnChar, hc, ih hcs]

theorem splitOnChar_append (sep : Char) (a b : List Char) (h : sep ∉ a) :
    splitOnChar sep (a ++ sep :: b) = a :: splitOnChar sep b := by
  induction a with
  | nil => simp [splitOnChar]
  | cons c cs ih =>
    have hc : ¬ c = sep := fun hc => h (by simp [hc])
    have hcs : sep ∉ cs := fun hm => h (List.mem_cons_of_mem _ hm)
    simp [splitOnChar, hc, ih hcs]

theorem dropWhile_spaces (k : Nat) (core : List Char)
    (h : ∀ c, core.head? = some c → isJsSpace c = false) :
    (List.replicate k ' ' ++ core).dropWhile isJsSpace = core := by
  induction k with
  | zero =>
    cases core with
    | nil => rfl
    | cons c cs =>
      have := h c rfl
      simp [List.dropWhile_cons, this]
  | succ k ih =>
    have hs : isJsSpace ' ' = true := by decide
    simp [List.replicate_succ, List.dropWhile_cons, hs, ih]

theorem jsTrim_padded (k m : Nat) (core : List Char) (hne : core ≠ [])
    (hh : ∀ c, core.head? = some c → isJsSpace c = false)
    (hl : ∀ c, core.getLast? = some c → isJsSpace c = false) :
    jsTrim (List.replicate k ' ' ++ (core ++ List.replicate m ' ')) = core := by
  unfold jsTrim
  have h1 : (List.replicate k ' ' ++ (core ++ List.replicate m ' ')).dropWhile isJsSpace =
      core ++ List.replicate m ' ' := by
    apply dropWhile_spaces
    intro d hd
    cases core with
    | nil => exact absurd rfl hne
    | cons c cs => exact hh d (by simpa using hd)
  rw [h1, List.reverse_append, List.reverse_replicate]
  have h2 : (List.replicate m ' ' ++ core.reverse).dropWhile isJsSpace = core.reverse := by
    apply dropWhile_spaces
    intro d hd
    exact hl d (by simpa [List.head?_reverse] using hd)
  rw [h2, List.reverse_reverse]

theorem isPrefixOf_name (a b v : List Char) (ha : '=' ∉ a) (hb : '=' ∉ b) :
    (a ++ ['=']).isPrefixOf (b ++ '=' :: v) = decide (a = b) := by
  induction a generalizing b with
  | nil =>
    cases b with
    | nil => simp [List.isPrefixOf]
    | cons d ds =>
      have hd : ¬ d = '=' := fun hc => hb (by simp [hc])
      have : ('=' == d) = false := by
        simp only [beq_eq_false_iff_ne, ne_eq]
        exact fun hc => hd hc.symm
      simp [List.isPrefixOf, this]
  | cons c cs ih =>
    have hc : ¬ c = '=' := fun hc => ha (by simp [hc])
    have hcs : '=' ∉ cs := fun hm => ha (List.mem_cons_of_mem _ hm)
    cases b with
    | nil =>
      have : (c == '=') = false := by simpa using hc
      simp [List.isPrefixOf, this]
    | cons d ds =>
      have hds : '=' ∉ ds := fun hm => hb (List.mem_cons_of_mem _ hm)
      have := ih ds hcs hds
      simp only [List.cons_append, List.isPrefixOf]
      by_cases hcd : c = d
      · subst hcd
        simp [this]
      · simp [hcd]

theorem render_no_semicolon (p : CookiePair) (h : p.wellFormed = true) : ';' ∉ p.render := by
  simp only [CookiePair.wellFormed, Bool.and_eq_true, Bool.not_eq_true', List.contains_eq_any_beq,
    List.any_eq_false, beq_iff_eq] at h
  obtain ⟨⟨⟨⟨h1, _⟩, h3⟩, _⟩, _⟩ := h
  simp only [CookiePair.render, List.mem_append, List.mem_replicate, List.mem_cons, not_or]
  refine ⟨fun hc => by simpa using hc.2, ⟨fun hc => h1 _ hc rfl, by decide, fun hc => h3 _ hc rfl⟩,
    fun hc => by simpa using hc.2⟩

theorem jsTrim_render (p : CookiePair) (h : p.wellFormed = true) :
    jsTrim p.render = p.name.toList ++ '=' :: p.value.toList := by
  simp only [CookiePair.wellFormed, Bool.and_eq_true] at h
  obtain ⟨⟨_, h4⟩, h5⟩ := h
  unfold CookiePair.render
  apply jsTrim_padded
  · simp
  · intro c hc
    cases hn : p.name.toList with
    | nil =>
      rw [hn] at hc
      simp at hc
      subst hc
      decide
    | cons d ds =>
      rw [hn] at hc h4
      simp at hc h4
      subst hc
      exact h4
  · intro c hc
    cases hv : p.value.toList with
    | nil =>
      rw [hv] at hc
      simp at hc
      subst hc
      decide
    | cons e es =>
      rw [hv] at hc h5
      rw [List.append_cons, List.getLast?_append_of_ne_nil _ (by simp)] at hc
      rw [hc] at h5
      simpa using h5
theorem drop_name (a v : List Char) : (a ++ '=' :: v).drop (a.length + 1) = v := by
  induction a with
  | nil => rfl
  | cons c cs ih => simp [ih]

theorem split_render (ps : List CookiePair) (h : ∀ p ∈ ps, p.wellFormed = true)
    (hne : ps ≠ []) :
    splitOnChar ';' (renderCookieChars ps) = ps.map CookiePair.render := by
  induction ps with
  | nil => exact absurd rfl hne
  | cons p rest ih =>
    have hp := render_no_semicolon p (h p (List.mem_cons_self _ _))
    cases rest with
    | nil => simp [renderCookieChars, splitOnChar_of_not_mem _ _ hp]
    | cons q qs =>
      have hrest : ∀ x ∈ q :: qs, x.wellFormed = true :=
        fun x hx => h x (List.mem_cons_of_mem _ hx)
      simp only [renderCookieChars, List.map_cons]
      rw [splitOnChar_append _ _ _ hp]
      have := ih hrest (by simp)
      simp only [renderCookieChars, List.map_cons] at this
      rw [this]

theorem findCookie_render (ps : List CookiePair) (n : String)
    (h : ∀ p ∈ ps, p.wellFormed = true) (hn : '=' ∉ n.toList) :
    findCookie n.toList (ps.map CookiePair.render) = lookupCookie ps n := by
  induction ps with
  | nil => rfl
  | cons p rest ih =>
    have hp := h p (List.mem_cons_self _ _)
    have hrest : ∀ x ∈ rest, x.wellFormed = true := fun x hx => h x (List.mem_cons_of_mem _ hx)
    have hname : '=' ∉ p.name.toList := by
      simp only [CookiePair.wellFormed, Bool.and_eq_true, Bool.not_eq_true',
        List.contains_eq_any_beq, List.any_eq_false, beq_iff_eq] at hp
      exact fun hc => hp.1.1.1.2 _ hc rfl
    simp only [List.map_cons, findCookie, jsTrim_render p hp,
      isPrefixOf_name _ _ _ hn hname, decide_eq_true_eq]
    by_cases heq : n.toList = p.name.toList
    · have hnp : p.name = n := (String.ext heq).symm
      subst hnp
      have hb : (p.name == p.name) = true := by simp
      have hmk : String.mk p.value.toList = p.value := rfl
      simp only [if_true, lookupCookie, List.find?_cons, hb, drop_name, hmk]
    · have hnp : ¬ p.name = n := fun hc => heq (by rw [hc])
      have hb : (p.name == n) = false := by simpa using hnp
      simp only [heq, if_false, lookupCookie, List.find?_cons, hb]
      exact ih hrest

theorem getCookie_render (ps : List CookiePair) (n : String)
    (h : ∀ p ∈ ps, p.wellFormed = true) (hn : '=' ∉ n.toList) :
    getCookie (renderCookies ps) n = lookupCookie ps n := by
  cases ps with
  | nil => rfl
  | cons p rest =>
    have hne : renderCookies (p :: rest) ≠ "" := by
      intro hc
      have hl : (renderCookies (p :: rest)).toList = "".toList := by rw [hc]
      have hmem : '=' ∈ renderCookieChars (p :: rest) := by
        cases rest <;> simp [renderCookieChars, CookiePair.render]
      simp only [renderCookies] at hl
      have hl2 : renderCookieChars (p :: rest) = [] := hl
      rw [hl2] at hmem
      simp at hmem
    simp only [getCookie, hne, ne_eq, not_false_eq_true, if_true]
    have : (renderCookies (p :: rest)).toList = renderCookieChars (p :: rest) := rfl
    rw [this, split_render _ h (by simp)]
    exact findCookie_render _ n h hn
theorem uriTokens_ne_nil (cs : List Char) (ts : List UriToken) (hne : cs ≠ [])
    (h : uriTokens cs = some ts) : ts ≠ [] := by
  unfold uriTokens at h
  split at h
  · exact absurd rfl hne
  · split at h
    · simp only [Option.map_eq_some'] at h
      obtain ⟨a, _, ha⟩ := h
      rw [← ha]
      simp
    · cases h
  · cases h
  · simp only [Option.map_eq_some'] at h
    obtain ⟨a, _, ha⟩ := h
    rw [← ha]
    simp

theorem map_cons_ne_nil (o : Option (List Char)) (c : Char) (out : List Char)
    (h : o.map (fun cs => c :: cs) = some out) : out ≠ [] := by
  simp only [Option.map_eq_some'] at h
  obtain ⟨a, _, ha⟩ := h
  rw [← ha]
  simp

theorem utf8Go_ne_nil (ts : List UriToken) :
    ∀ (need acc low : Nat) (out : List Char), ts ≠ [] →
      utf8Go need acc low ts = some out → out ≠ [] := by
  induction ts with
  | nil => intro _ _ _ _ hne; exact absurd rfl hne
  | cons t rest ih =>
    intro need acc low out _ h
    have hrest : ∀ (n a l : Nat), utf8Go n a l rest = some out → n ≠ 0 → out ≠ [] := by
      intro n a l hg hn
      cases rest with
      | nil => simp [utf8Go, hn] at hg
      | cons u us => exact ih n a l out (by simp) hg
    cases t with
    | lit c =>
      simp only [utf8Go] at h
      split at h
      · exact map_cons_ne_nil _ c out h
      · cases h
    | octet b =>
      simp only [utf8Go] at h
      split at h
      · split at h
        · exact map_cons_ne_nil _ _ out h
        · split at h
          · exact hrest _ _ _ h (by decide)
          · split at h
            · exact hrest _ _ _ h (by decide)
            · split at h
              · exact hrest _ _ _ h (by decide)
              · cases h
      · split at h
        · split at h
          · split at h
            · exact map_cons_ne_nil _ _ out h
            · cases h
          · exact hrest _ _ _ h (by omega)
        · cases h

theorem decode_ne_empty (v d : String) (hv : v ≠ "") (h : decodeURIComponent v = .ok d) :
    d ≠ "" := by
  unfold decodeURIComponent at h
  cases ht : uriTokens v.toList with
  | none => rw [ht] at h; simp at h
  | some ts =>
    rw [ht] at h
    simp only [Option.bind] at h
    cases hu : utf8Decode ts with
    | none => rw [hu] at h; simp at h
    | some out =>
      rw [hu] at h
      simp only [Except.ok.injEq] at h
      have hvl : v.toList ≠ [] := by
        intro hc
        exact hv (String.ext hc)
      have hout := utf8Go_ne_nil ts 0 0 0 out (uriTokens_ne_nil _ ts hvl ht) hu
      intro hc
      rw [hc] at h
      have : (String.mk out).toList = "".toList := by rw [h]
      exact hout this

/-- C17: for every cookie string made of well-formed `name=value` pairs
separated by `;`, each with any number of spaces around it, and every name `n`
(a name holds no `=`), `getCookie(n)` returns what the description says: the
decoded value of the first pair named exactly `n`, and `null` when no pair is
named exactly `n`, in particular for the empty cookie string. -/
theorem C17_getCookie_by_name (ps : List CookiePair) (n : String)
    (hwf : ∀ p ∈ ps, p.wellFormed = true) (hn : '=' ∉ n.toList) :
    getCookie (renderCookies ps) n = lookupCookie ps n ∧
    (∀ p, ps.find? (fun q => q.name == n) = some p →
      getCookie (renderCookies ps) n = (decodeURIComponent p.value).map .str) ∧
    ((∀ p ∈ ps, p.name ≠ n) → getCookie (renderCookies ps) n = .ok .null) ∧
    getCookie "" n = .ok .null := by
  have h := getCookie_render ps n hwf hn
  refine ⟨h, ?_, ?_, rfl⟩
  · intro p hp
    rw [h, lookupCookie, hp]
  · intro hno
    have hnone : ps.find? (fun q => q.name == n) = Option.none := by
      rw [List.find?_eq_none]
      intro q hq
      simpa using hno q hq
    rw [h, lookupCookie, hnone]

/-- C17 on a cookie string where `csrftoken` is also the start of another name. -/
theorem C17_getCookie_by_name_witness :
    (∀ p ∈ sampleCookies, p.wellFormed = true) ∧ '=' ∉ "csrftoken".toList ∧
    getCookie (renderCookies sampleCookies) "csrftoken" =
      (decodeURIComponent "tok%20123").map .str :=
  ⟨by decide, by decide,
    (C17_getCookie_by_name sampleCookies "csrftoken" (by decide) (by decide)).2.1
      ⟨"csrftoken", "tok%20123", 1, 0⟩ rfl⟩

/-! ## The CSRF token header -/

theorem fetches_ajax (w : World) (form : Form) (o : FetchOutcome) :
    fetches (handleAjaxForm w form o).1.world.trace =
      fetches w.trace ++ [ajaxRequest w (form.setSubmit true "Loading...")] := by
  simp only [handleAjaxForm, ajaxCatch, ajaxTry]
  cases ho : o.toExcept with
  | error e =>
    simp [showNotification_error, World.log, World.setTimeout, World.appendNotification,
      fetches_append, fetches]
  | ok data =>
    simp only [ajaxHandleData]
    cases hs : getProp data "success" with
    | error e =>
      simp [showNotification_error, World.log, World.setTimeout, World.appendNotification,
        fetches_append, fetches]
    | ok success =>
      have hm := getProp_of_ok hs "message"
      have hr := getProp_of_ok hs "redirect"
      by_cases ht : truthy success = true
      · by_cases hrd : truthy (field data "redirect") = true
        · simp [ht, hm, hr, hrd, showNotification_success, World.log, World.setTimeout,
            World.appendNotification, fetches_append, fetches]
        · simp [ht, hm, hr, hrd, showNotification_success, World.log, World.setTimeout,
            World.appendNotification, fetches_append, fetches]
      · simp [ht, hm, showNotification_error, World.log, World.setTimeout,
          World.appendNotification, fetches_append, fetches]

theorem fetches_updateTask (w : World) (taskId status : String) (o : FetchOutcome) :
    fetches (catchLog (updateTaskTry w taskId status o) "Error updating task:").world.trace =
      fetches w.trace ++
        [{ url := "/api/core/update-task/"
           query := []
           method := "POST"
           headers := [("Content-Type", .str "application/json"), ("X-CSRFToken", w.csrfToken)]
           body := .json (.obj [("taskId", .str taskId), ("status", .str status)]) }] := by
  simp only [catchLog, updateTaskTry]
  cases ho : o.toExcept with
  | error e => simp [World.log, fetches_append, fetches]
  | ok data =>
    simp only
    cases hs : getProp data "success" with
    | error e => simp [World.log, fetches_append, fetches]
    | ok success =>
      by_cases ht : truthy success = true
      · simp [ht, World.log, fetches_append, fetches]
      · simp [ht, World.log, fetches_append, fetches]

theorem fetches_cancelTry (w : World) (id : Option String) (o : FetchOutcome) :
    fetches (catchNotify (cancelTry w id o) "Error cancelling appointment:"
        "An error occurred while cancelling the appointment").world.trace =
      fetches w.trace ++
        [postRequest w ("/api/appointments/cancel/" ++ interp id ++ "/") .none] := by
  simp only [catchNotify, cancelTry]
  cases ho : o.toExcept with
  | error e =>
    simp [showNotification_error, World.log, World.setTimeout, World.appendNotification,
      fetches_append, fetches]
  | ok data =>
    simp only
    cases hs : getProp data "success" with
    | error e =>
      simp [showNotification_error, World.log, World.setTimeout, World.appendNotification,
        fetches_append, fetches]
    | ok success =>
      have hm := getProp_of_ok hs "message"
      by_cases ht : truthy success = true
      · simp [ht, showNotification_success, World.log, World.setTimeout,
          World.appendNotification, fetches_append, fetches]
      · simp [ht, hm, showNotification_error, World.log, World.setTimeout,
          World.appendNotification, fetches_append, fetches]

theorem fetches_start (w : World) (id : Option String) (o : FetchOutcome) :
    fetches (startAppointment w id o).world.trace =
      fetches w.trace ++
        [postRequest w ("/api/appointments/start/" ++ interp id ++ "/") .none] := by
  simp only [startAppointment, catchNotify, startTry]
  cases ho : o.toExcept with
  | error e =>
    simp [showNotification_error, World.log, World.setTimeout, World.appendNotification,
      fetches_append, fetches]
  | ok data =>
    simp only
    cases hs : getProp data "success" with
    | error e =>
      simp [showNotification_error, World.log, World.setTimeout, World.appendNotification,
        fetches_append, fetches]
    | ok success =>
      by_cases ht : truthy success = true
      · simp [ht, showNotification_success, World.log, World.setTimeout,
          World.appendNotification, fetches_append, fetches]
      · simp [ht, World.log, fetches_append, fetches]

/-- A handler that adds no request carries the token on all it adds. -/
theorem carries_none (w : World) (r : Run) (token : JsVal)
    (h : fetches r.world.trace = fetches w.trace) : CarriesToken w r token :=
  ⟨[], by simp [h], by simp⟩

/-- A handler that adds one request carrying the token. -/
theorem carries_one (w : World) (r : Run) (token : JsVal) (q : Request)
    (h : fetches r.world.trace = fetches w.trace ++ [q])
    (hq : q.headers.lookup "X-CSRFToken" = some token) : CarriesToken w r token :=
  ⟨[q], h, by simpa using hq⟩

/-- The same after a dialog was shown first. -/
theorem carries_after_dialog (w : World) (d : Effect) (r : Run) (token : JsVal)
    (hd : fetches [d] = []) (h : CarriesToken (w.log d) r token) : CarriesToken w r token := by
  obtain ⟨added, h1, h2⟩ := h
  refine ⟨added, ?_, h2⟩
  rw [h1]
  simp [World.log, fetches_append, hd]

/-- The bootstrap stores the decoded cookie value when it is not empty. -/
theorem setup_stores_token (w0 : World) (cookie d : String)
    (h : getCookie cookie "csrftoken" = .ok (.str d)) (hd : d ≠ "") :
    (setupCSRFToken w0 cookie).world.csrfToken = .str d := by
  have ht : truthy (.str d) = true := by simp [truthy, hd]
  simp [setupCSRFToken, h, ht]

/-- C14: for every cookie string of well-formed pairs in which the first pair
named `csrftoken` has a non-empty value `v` that decodes to `d`, the bootstrap
stores `d` as the token, and in every later state with that token each request
built by form submission, task update, cancel, start, suspend, activate, approve
and reject, for every dialog answer and every outcome, carries the header
`X-CSRFToken` equal to `d`. -/
theorem C14_requests_carry_token (ps : List CookiePair) (p : CookiePair) (d : String)
    (hwf : ∀ q ∈ ps, q.wellFormed = true)
    (hfind : ps.find? (fun q => q.name == "csrftoken") = some p)
    (hv : p.value ≠ "") (hd : decodeURIComponent p.value = .ok d)
    (w0 w : World)
    (hw : w.csrfToken = (setupCSRFToken w0 (renderCookies ps)).world.csrfToken)
    (form : Form) (id type taskId : Option String) (status : String) (confirmed : Bool)
    (reason : Option String) (o : FetchOutcome) :
    (setupCSRFToken w0 (renderCookies ps)).world.csrfToken = .str d ∧
    CarriesToken w (handleAjaxForm w form o).1 (.str d) ∧
    CarriesToken w (updateTaskStatus w taskId status o) (.str d) ∧
    CarriesToken w (cancelAppointment w id confirmed o) (.str d) ∧
    CarriesToken w (startAppointment w id o) (.str d) ∧
    CarriesToken w (suspendUser w id confirmed o) (.str d) ∧
    CarriesToken w (activateUser w id o) (.str d) ∧
    CarriesToken w (approveVerification w type id o) (.str d) ∧
    CarriesToken w (rejectVerification w type id reason o) (.str d) := by
  have hget : getCookie (renderCookies ps) "csrftoken" = .ok (.str d) := by
    rw [getCookie_render ps "csrftoken" hwf (by decide), lookupCookie, hfind]
    simp only [hd]
    rfl
  have hset := setup_stores_token w0 _ d hget (decode_ne_empty _ d hv hd)
  have htok : w.csrfToken = .str d := hw.trans hset
  refine ⟨hset, ?_, ?_, ?_, ?_, ?_, ?_, ?_, ?_⟩
  · exact carries_one w _ _ _ (fetches_ajax w form o) (by simp [ajaxRequest, List.lookup, htok])
  · cases taskId with
    | none => exact carries_none w _ _ (by simp [updateTaskStatus])
    | some t =>
      by_cases ht : t = ""
      · exact carries_none w _ _ (by simp [updateTaskStatus, ht])
      · simp only [updateTaskStatus, ht, if_false]
        exact carries_one w _ _ _ (fetches_updateTask w t status o)
          (by simp [List.lookup, htok])
  · cases confirmed with
    | false => exact carries_none w _ _ (by simp [cancelAppointment, World.log, fetches_append, fetches])
    | true =>
      apply carries_after_dialog w (.confirm "Are you sure you want to cancel this appointment?")
        _ _ rfl
      simp only [cancelAppointment, Bool.not_true, Bool.false_eq_true, if_false]
      exact carries_one _ _ _ _ (fetches_cancelTry _ id o)
        (by simp [postRequest, List.lookup, World.log, htok])
  · exact carries_one w _ _ _ (fetches_start w id o) (by simp [postRequest, List.lookup, htok])
  · cases confirmed with
    | false => exact carries_none w _ _ (by simp [suspendUser, World.log, fetches_append, fetches])
    | true =>
      apply carries_after_dialog w (.confirm "Are you sure you want to suspend this user?")
        _ _ rfl
      simp only [suspendUser, Bool.not_true, Bool.false_eq_true, if_false]
      exact carries_one _ _ _ _ (fetches_postThenReload _ _ _ _ _ _ o)
        (by simp [postRequest, List.lookup, World.log, htok])
  · exact carries_one w _ _ _ (fetches_postThenReload w _ _ _ _ _ o)
      (by simp [postRequest, List.lookup, htok])
  · exact carries_one w _ _ _ (fetches_postThenReload w _ _ _ _ _ o)
      (by simp [postRequest, List.lookup, htok])
  · cases reason with
    | none => exact carries_none w _ _ (by simp [rejectVerification, World.log, fetches_append, fetches])
    | some r =>
      by_cases hr : r = ""
      · exact carries_none w _ _ (by simp [rejectVerification, hr, World.log, fetches_append, fetches])
      · apply carries_after_dialog w (.prompt "Please provide a reason for rejection:") _ _ rfl
        simp only [rejectVerification, hr, if_false]
        exact carries_one _ _ _ _ (fetches_postThenReload _ _ _ _ _ _ o)
          (by simp [postRequest, List.lookup, World.log, htok])

/-- C14 on the sample cookie string, for a start request and a form submission. -/
theorem C14_requests_carry_token_witness :
    tokenWorld.csrfToken = .str "tok 123" ∧
    CarriesToken tokenWorld (startAppointment tokenWorld (some "7") .rejected)
      (.str "tok 123") ∧
    CarriesToken tokenWorld (handleAjaxForm tokenWorld sampleForm .rejected).1
      (.str "tok 123") :=
  have h := C14_requests_carry_token sampleCookies ⟨"csrftoken", "tok%20123", 1, 0⟩ "tok 123"
    (by decide) rfl (by decide) rfl sampleWorld tokenWorld rfl sampleForm (some "7")
    Option.none Option.none "completed" true Option.none .rejected
  ⟨h.1, h.2.2.2.2.1, h.2.1⟩

/-! ## The patient queue -/

/-- One successful refresh of a page with one action element outside the queue
and one inside: the outside element gains a listener, the inside one is
replaced by the element of the new markup, which gets its first listener. -/
theorem refresh_step (w : World) (content : JsVal) (outside inside : ActionElement)
    (ho : outside.inQueue = false) (hi : inside.inQueue = true) :
    (refreshPatientQueue w ⟨some content, [outside, inside]⟩ [(some "start", some "9")]
        (.json queueResponse)).2 =
      ⟨some (.str "<button>Start</button>"),
        [{ outside with listeners := outside.listeners + 1 },
          ⟨true, some "start", some "9", 1⟩]⟩ := by
  have hs : getProp queueResponse "success" = .ok (.bool true) := rfl
  have hh : field queueResponse "html" = .str "<button>Start</button>" := rfl
  have ht : truthy (.bool true) = true := rfl
  have ht2 : truthy (.str "<button>Start</button>") = true := by decide
  simp [refreshPatientQueue, refreshQueueTry, FetchOutcome.toExcept, hs, hh, ht, ht2,
    initAppointmentCalendar, replaceQueue, ho, hi]

/-- After `n + 1` successful refreshes of the sample page the start button
outside the queue carries `n + 2` listeners. -/
theorem refreshTimes_sample (n : Nat) (w : World) (content : JsVal) (k : Nat)
    (inside : ActionElement) (hi : inside.inQueue = true) :
    (refreshTimes [(some "start", some "9")] (.json queueResponse) (n + 1) w
        ⟨some content, [⟨false, some "start", some "7", k⟩, inside]⟩).2 =
      ⟨some (.str "<button>Start</button>"),
        [⟨false, some "start", some "7", k + n + 1⟩, ⟨true, some "start", some "9", 1⟩]⟩ := by
  induction n generalizing w content k inside with
  | zero =>
    simp only [refreshTimes]
    rw [refresh_step w content _ inside rfl hi]
  | succ m ih =>
    have hstep := refresh_step w content ⟨false, some "start", some "7", k⟩ inside rfl hi
    have hun : refreshTimes [(some "start", some "9")] (.json queueResponse) (m + 1 + 1) w
        ⟨some content, [⟨false, some "start", some "7", k⟩, inside]⟩ =
        refreshTimes [(some "start", some "9")] (.json queueResponse) (m + 1)
          (refreshPatientQueue w ⟨some content, [⟨false, some "start", some "7", k⟩, inside]⟩
            [(some "start", some "9")] (.json queueResponse)).1.world
          (refreshPatientQueue w ⟨some content, [⟨false, some "start", some "7", k⟩, inside]⟩
            [(some "start", some "9")] (.json queueResponse)).2 := rfl
    rw [hun, hstep]
    have := ih (refreshPatientQueue w ⟨some content, [⟨false, some "start", some "7", k⟩, inside]⟩
      [(some "start", some "9")] (.json queueResponse)).1.world
      (.str "<button>Start</button>") (k + 1) ⟨true, some "start", some "9", 1⟩ rfl
    rw [this]
    have harith : k + 1 + m + 1 = k + (m + 1) + 1 := by omega
    rw [harith]

/-- Each listener of a start button calls fetch once. -/
theorem fetches_runListeners_start (id : Option String) (o : FetchOutcome) (k : Nat)
    (w : World) :
    fetches (runListeners (fun v => providerAppointmentClick v (some "start") id o) k w).trace =
      fetches w.trace ++
        List.replicate k (postRequest w ("/api/appointments/start/" ++ interp id ++ "/") .none) := by
  induction k generalizing w with
  | zero => simp [runListeners]
  | succ m ih =>
    have hclick : providerAppointmentClick w (some "start") id o = startAppointment w id o := by
      simp [providerAppointmentClick]
    have htok : (startAppointment w id o).world.csrfToken = w.csrfToken := by
      simp only [startAppointment, catchNotify, startTry]
      cases ho : o.toExcept with
      | error e =>
        simp [showNotification_error, World.log, World.setTimeout, World.appendNotification]
      | ok data =>
        simp only
        cases hs : getProp data "success" with
        | error e =>
          simp [showNotification_error, World.log, World.setTimeout, World.appendNotification]
        | ok success =>
          by_cases ht : truthy success = true
          · simp [ht, showNotification_success, World.log, World.setTimeout,
              World.appendNotification]
          · simp [ht, World.log]
    simp only [runListeners]
    rw [ih, hclick, fetches_start]
    simp [postRequest, htok, List.replicate_succ]

/-- C15 fails on the code: `initAppointmentCalendar` registers a listener on
every `provider-appointment-action` element of the document, so each successful
refresh adds one to the elements outside the replaced fragment. After `n + 1`
refreshes of the sample page the start button outside the queue carries `n + 2`
listeners and one click on it calls fetch `n + 2` times, with a POST to
`/api/appointments/start/7/` each time; the button of the new fragment carries
one listener. -/
theorem C15_refresh_duplicates_listeners (n : Nat) (o : FetchOutcome) :
    (refreshTimes [(some "start", some "9")] (.json queueResponse) (n + 1) sampleWorld
        samplePage).2.queue = some (.str "<button>Start</button>") ∧
    (refreshTimes [(some "start", some "9")] (.json queueResponse) (n + 1) sampleWorld
        samplePage).2.actions =
      [⟨false, some "start", some "7", n + 2⟩, ⟨true, some "start", some "9", 1⟩] ∧
    (fetches (clickActionElement sampleWorld ⟨false, some "start", some "7", n + 2⟩ o).trace).map
        (fun r => (r.method, r.url)) =
      List.replicate (n + 2) ("POST", "/api/appointments/start/7/") := by
  have h := refreshTimes_sample n sampleWorld (.str "") 1 ⟨true, some "start", some "8", 1⟩ rfl
  have hp : samplePage =
      ⟨some (.str ""), [⟨false, some "start", some "7", 1⟩, ⟨true, some "start", some "8", 1⟩]⟩ :=
    rfl
  rw [hp, h]
  refine ⟨rfl, ?_, ?_⟩
  · have : 1 + n + 1 = n + 2 := by omega
    rw [this]
  · simp only [clickActionElement]
    rw [fetches_runListeners_start]
    simp [sampleWorld, fetches, postRequest, interp]

/-! ## Statistics -/

theorem setFirstTagged_tags (nodes : List StatNode) (k : String) (v : JsVal) :
    (setFirstTagged nodes k v).map (fun n => n.tag) = nodes.map (fun n => n.tag) := by
  induction nodes with
  | nil => rfl
  | cons a as ih =>
    simp only [setFirstTagged]
    split
    · simp
    · simp [ih]

theorem setFirstTagged_get (k : String) (v : JsVal) (nodes : List StatNode) :
    ∀ (i : Nat) (n : StatNode), nodes[i]? = some n →
      (setFirstTagged nodes k v)[i]? =
        some (if n.tag = k ∧ k ∉ (nodes.take i).map (fun m => m.tag) then { n with text := v }
          else n) := by
  induction nodes with
  | nil => intro i n h; simp at h
  | cons a as ih =>
    intro i n h
    cases i with
    | zero =>
      simp only [List.getElem?_cons_zero, Option.some.injEq] at h
      subst h
      simp only [setFirstTagged]
      split <;> simp_all
    | succ j =>
      simp only [List.getElem?_cons_succ] at h
      simp only [setFirstTagged]
      by_cases ha : a.tag = k
      · simp [ha, h]
      · have hk : ¬ k = a.tag := fun hc => ha hc.symm
        simp [ha, hk, ih j n h]
theorem statsForEach_get (val : String → JsVal) (es : List (String × JsVal)) :
    ∀ nodes : List StatNode, (∀ e ∈ es, plainKey e.1 = true ∧ e.2 = val e.1) →
      (statsForEach es nodes).2 = .ok () ∧
      (statsForEach es nodes).1.map (fun n => n.tag) = nodes.map (fun n => n.tag) ∧
      ∀ (i : Nat) (n : StatNode), nodes[i]? = some n →
        (statsForEach es nodes).1[i]? =
          some (if n.tag ∈ es.map (fun e => e.1) ∧ n.tag ∉ (nodes.take i).map (fun m => m.tag)
            then { n with text := val n.tag } else n) := by
  induction es with
  | nil =>
    intro nodes _
    refine ⟨rfl, rfl, ?_⟩
    intro i n h
    simp [statsForEach, h]
  | cons e rest ih =>
    intro nodes hes
    obtain ⟨k, v⟩ := e
    have hk := hes (k, v) (List.mem_cons_self _ _)
    have hrest : ∀ e ∈ rest, plainKey e.1 = true ∧ e.2 = val e.1 :=
      fun e he => hes e (List.mem_cons_of_mem _ he)
    obtain ⟨h1, h2, h3⟩ := ih (setFirstTagged nodes k v) hrest
    have hun : statsForEach ((k, v) :: rest) nodes =
        statsForEach rest (setFirstTagged nodes k v) := by
      simp [statsForEach, hk.1]
    have htags := setFirstTagged_tags nodes k v
    rw [hun]
    refine ⟨h1, h2.trans htags, ?_⟩
    intro i n hn
    have hget := setFirstTagged_get k v nodes i n hn
    have htake : ((setFirstTagged nodes k v).take i).map (fun m => m.tag) =
        (nodes.take i).map (fun m => m.tag) := by
      rw [List.map_take, List.map_take, htags]
    rw [h3 i _ hget, htake]
    have hv : v = val k := hk.2
    by_cases hnk : n.tag = k
    · by_cases hF : k ∈ (nodes.take i).map (fun m => m.tag)
      · have hF2 : n.tag ∈ (nodes.take i).map (fun m => m.tag) := hnk ▸ hF
        have hin : (if n.tag = k ∧ k ∉ (nodes.take i).map (fun m => m.tag)
            then { n with text := v } else n) = n := if_neg (fun hc => hc.2 hF)
        rw [hin, if_neg (fun hc => hc.2 hF2), if_neg (fun hc => hc.2 hF2)]
      · have hF2 : n.tag ∉ (nodes.take i).map (fun m => m.tag) := hnk ▸ hF
        have hin : (if n.tag = k ∧ k ∉ (nodes.take i).map (fun m => m.tag)
            then { n with text := v } else n) = { n with text := v } := if_pos ⟨hnk, hF⟩
        have hB : n.tag ∈ ((k, v) :: rest).map (fun e => e.1) ∧
            n.tag ∉ (nodes.take i).map (fun m => m.tag) := ⟨by simp [hnk], hF2⟩
        rw [hin, if_pos hB]
        by_cases hr : n.tag ∈ rest.map (fun e => e.1)
        · have hA : ({ n with text := v } : StatNode).tag ∈ rest.map (fun e => e.1) ∧
              ({ n with text := v } : StatNode).tag ∉ (nodes.take i).map (fun m => m.tag) :=
            ⟨hr, hF2⟩
          rw [if_pos hA]
        · have hA : ¬ (({ n with text := v } : StatNode).tag ∈ rest.map (fun e => e.1) ∧
              ({ n with text := v } : StatNode).tag ∉ (nodes.take i).map (fun m => m.tag)) :=
            fun hc => hr hc.1
          rw [if_neg hA, hv, hnk]
    · have hin : (if n.tag = k ∧ k ∉ (nodes.take i).map (fun m => m.tag)
          then { n with text := v } else n) = n := if_neg (fun hc => hnk hc.1)
      rw [hin]
      by_cases hr : n.tag ∈ rest.map (fun e => e.1) ∧ n.tag ∉ (nodes.take i).map (fun m => m.tag)
      · have hB : n.tag ∈ ((k, v) :: rest).map (fun e => e.1) ∧
            n.tag ∉ (nodes.take i).map (fun m => m.tag) := ⟨by simp [hr.1], hr.2⟩
        rw [if_pos hr, if_pos hB]
      · rw [if_neg hr]
        have : ¬ (n.tag ∈ ((k, v) :: rest).map (fun e => e.1) ∧
            n.tag ∉ (nodes.take i).map (fun m => m.tag)) := by
          intro hc
          apply hr
          refine ⟨?_, hc.2⟩
          have h5 := hc.1
          simp only [List.map_cons, List.mem_cons] at h5
          rcases h5 with h5 | h5
          · exact absurd h5 hnk
          · exact h5
        rw [if_neg this]

/-- The nodes the shared `try` block leaves on a truthy `success` with an object
of plain keys as `stats`. -/
theorem statsTry_nodes (w : World) (url : String) (nodes : List StatNode)
    (data success : JsVal) (m : List (String × JsVal))
    (hs : getProp data "success" = .ok success) (ht : truthy success = true)
    (hm : field data "stats" = .obj m) (hplain : ∀ kv ∈ m, plainKey kv.1 = true) :
    ∀ (i : Nat) (n : StatNode), nodes[i]? = some n →
      (statsTry w url nodes (.json data)).2.1[i]? =
        some (if n.tag ∈ m.map (fun e => e.1) ∧ n.tag ∉ (nodes.take i).map (fun x => x.tag)
          then { n with text := (m.lookup n.tag).getD .undefined } else n) := by
  have hes : ∀ e ∈ m.map (fun kv => (kv.1, (m.lookup kv.1).getD JsVal.undefined)),
      plainKey e.1 = true ∧ e.2 = (fun k => (m.lookup k).getD JsVal.undefined) e.1 := by
    intro e he
    simp only [List.mem_map] at he
    obtain ⟨kv, hkv, rfl⟩ := he
    exact ⟨hplain kv hkv, rfl⟩
  obtain ⟨_, _, h3⟩ := statsForEach_get (fun k => (m.lookup k).getD JsVal.undefined) _ nodes hes
  intro i n hn
  have hkeys : (m.map (fun kv => (kv.1, (m.lookup kv.1).getD JsVal.undefined))).map
      (fun e => e.1) = m.map (fun e => e.1) := by
    simp [List.map_map, Function.comp_def]
  have := h3 i n hn
  rw [hkeys] at this
  simp only [statsTry, FetchOutcome.toExcept, hs, ht, if_true, hm, ownEntries]
  exact this

/-- C16 fails as stated: with two nodes tagged `patients`, a refresh answered
with `patients: "12"` writes the first and leaves the second with its old text. -/
theorem C16_counterexample :
    ((refreshOrganizationStats sampleWorld sampleStatNodes (.json patientsResponse)).2.map
        (fun n => n.tag)) = ["patients", "visits", "patients"] ∧
    (refreshOrganizationStats sampleWorld sampleStatNodes (.json patientsResponse)).2[0]? =
      some ⟨"patients", .str "12"⟩ ∧
    (refreshOrganizationStats sampleWorld sampleStatNodes (.json patientsResponse)).2[2]? =
      some ⟨"patients", .str "10"⟩ ∧
    (refreshSystemStats sampleWorld sampleStatNodes (.json patientsResponse)).2[2]? =
      some ⟨"patients", .str "10"⟩ :=
  ⟨rfl, rfl, rfl, rfl⟩

/-- C16, amended: for every page and every stats response with a truthy
`success` and an object `m` as `stats` whose keys are plain (no double quote,
backslash, line break or NUL), after `refreshOrganizationStats` a node tagged
`data-stat=k` has text `m[k]` when `k` is a key of `m` and no earlier node of
the document carries the same tag, and every other node keeps its text;
`refreshSystemStats` does the same for the nodes tagged `data-system-stat`. -/
theorem C16_stats_first_tagged_node (w : World) (nodes : List StatNode)
    (data success : JsVal) (m : List (String × JsVal))
    (hs : getProp data "success" = .ok success) (ht : truthy success = true)
    (hm : field data "stats" = .obj m) (hplain : ∀ kv ∈ m, plainKey kv.1 = true) :
    (∀ (i : Nat) (n : StatNode), nodes[i]? = some n →
      (refreshOrganizationStats w nodes (.json data)).2[i]? =
        some (if n.tag ∈ m.map (fun e => e.1) ∧ n.tag ∉ (nodes.take i).map (fun x => x.tag)
          then { n with text := (m.lookup n.tag).getD .undefined } else n)) ∧
    (∀ (i : Nat) (n : StatNode), nodes[i]? = some n →
      (refreshSystemStats w nodes (.json data)).2[i]? =
        some (if n.tag ∈ m.map (fun e => e.1) ∧ n.tag ∉ (nodes.take i).map (fun x => x.tag)
          then { n with text := (m.lookup n.tag).getD .undefined } else n)) :=
  ⟨fun i n hn => statsTry_nodes w "/api/organization/stats/" nodes data success m hs ht hm
      hplain i n hn,
   fun i n hn => statsTry_nodes w "/api/admin/system-stats/" nodes data success m hs ht hm
      hplain i n hn⟩

/-- C16, amended, on the sample nodes: the node tagged `visits` keeps its text. -/
theorem C16_stats_first_tagged_node_witness :
    (refreshOrganizationStats sampleWorld sampleStatNodes (.json patientsResponse)).2[1]? =
      some (if "visits" ∈ [("patients", JsVal.str "12")].map (fun e => e.1) ∧
          "visits" ∉ (sampleStatNodes.take 1).map (fun x => x.tag)
        then ⟨"visits", (([("patients", JsVal.str "12")].lookup "visits").getD .undefined)⟩
        else ⟨"visits", .str "20"⟩) :=
  (C16_stats_first_tagged_node sampleWorld sampleStatNodes patientsResponse (.bool true)
    [("patients", .str "12")] rfl rfl rfl (by decide)).1 1 ⟨"visits", .str "20"⟩ rfl

/-! ## The number animation -/

theorem animate_done (F inc : Rat) (hinc : 0 ≤ inc) :
    ∀ (frames : Nat) (st : MetricState), 0 < frames →
      F ≤ st.currentValue + frames * inc →
      ∃ mids : List Rat,
        (animate F inc frames st).running = false ∧
        (animate F inc frames st).displayed = st.displayed ++ mids ++ [F] ∧
        mids.length + 1 ≤ frames ∧
        (∀ d ∈ mids, ∃ z : Int, d = (z : Rat) ∧ Int.floor st.currentValue ≤ z ∧ (z : Rat) < F) ∧
        mids.Pairwise (fun a b => a ≤ b) := by
  intro frames
  induction frames with
  | zero => intro st h; omega
  | succ k ih =>
    intro st _ hF
    by_cases hc : st.currentValue + inc < F
    · have hk : 0 < k := by
        rcases Nat.eq_zero_or_pos k with h0 | h0
        · subst h0
          push_cast at hF
          linarith
        · exact h0
      have hF2 : F ≤ (st.currentValue + inc) + k * inc := by
        push_cast at hF
        linarith
      obtain ⟨mids, h1, h2, h3, h4, h5⟩ := ih
        ⟨st.currentValue + inc,
          st.displayed ++ [((Int.floor (st.currentValue + inc) : Int) : Rat)], true⟩ hk hF2
      have hun : animate F inc (k + 1) st = animate F inc k
          ⟨st.currentValue + inc,
            st.displayed ++ [((Int.floor (st.currentValue + inc) : Int) : Rat)], true⟩ := by
        simp [animate, updateValue, hc]
      refine ⟨((Int.floor (st.currentValue + inc) : Int) : Rat) :: mids, ?_, ?_, ?_, ?_, ?_⟩
      · rw [hun]; exact h1
      · rw [hun, h2]; simp
      · simp only [List.length_cons]; omega
      · intro d hd
        rcases List.mem_cons.mp hd with hd | hd
        · refine ⟨Int.floor (st.currentValue + inc), hd, ?_, ?_⟩
          · exact Int.floor_mono (by linarith)
          · exact lt_of_le_of_lt (Int.floor_le _) hc
        · obtain ⟨z, hz1, hz2, hz3⟩ := h4 d hd
          refine ⟨z, hz1, ?_, hz3⟩
          exact le_trans (Int.floor_mono (by simp only; linarith)) hz2
      · rw [List.pairwise_cons]
        refine ⟨?_, h5⟩
        intro d hd
        obtain ⟨z, hz1, hz2, _⟩ := h4 d hd
        rw [hz1]
        exact_mod_cast hz2
    · have hun : animate F inc (k + 1) st =
          ⟨st.currentValue + inc, st.displayed ++ [F], false⟩ := by
        simp [animate, updateValue, hc]
      refine ⟨[], ?_, ?_, ?_, ?_, ?_⟩
      · rw [hun]
      · rw [hun]; simp
      · simp
      · intro d hd; simp at hd
      · exact List.Pairwise.nil

/-- C18: for every metric whose text parses to a non-negative integer `v`, the
animation over exact rationals stops within 63 calls of `updateValue` (the last
of them requests no further frame), the last value it displays is `v`, every
value displayed before is an integer in `[0, v)`, and the values displayed never
decrease. -/
theorem C18_metric_animation (v : Nat) :
    (metricAnimation (v : Rat) 63).running = false ∧
    (metricAnimation (v : Rat) 63).displayed.length ≤ 63 ∧
    (metricAnimation (v : Rat) 63).displayed.getLast? = some (v : Rat) ∧
    (∀ d ∈ (metricAnimation (v : Rat) 63).displayed.dropLast,
      ∃ z : Int, d = (z : Rat) ∧ 0 ≤ z ∧ (z : Rat) < v) ∧
    (metricAnimation (v : Rat) 63).displayed.Pairwise (fun a b => a ≤ b) := by
  have hv : (0 : Rat) ≤ v := Nat.cast_nonneg v
  have hinc : (0 : Rat) ≤ (v : Rat) / (1000 / 16) := by positivity
  have hF : (v : Rat) ≤ (0 : Rat) + (63 : Nat) * ((v : Rat) / (1000 / 16)) := by
    have : (v : Rat) / (1000 / 16) = v * (2 / 125) := by ring
    rw [this]
    push_cast
    linarith
  obtain ⟨mids, h1, h2, h3, h4, h5⟩ := animate_done (v : Rat) ((v : Rat) / (1000 / 16)) hinc 63
    ⟨0, [], true⟩ (by decide) hF
  simp only [List.nil_append] at h2
  simp only [metricAnimation]
  refine ⟨h1, ?_, ?_, ?_, ?_⟩
  · rw [h2]; simp only [List.length_append, List.length_singleton]; exact h3
  · rw [h2]; simp
  · rw [h2, List.dropLast_concat]
    intro d hd
    obtain ⟨z, hz1, hz2, hz3⟩ := h4 d hd
    exact ⟨z, hz1, by simpa using hz2, hz3⟩
  · rw [h2, List.pairwise_append]
    refine ⟨h5, List.pairwise_singleton _ _, ?_⟩
    intro a ha b hb
    simp only [List.mem_singleton] at hb
    subst hb
    obtain ⟨z, hz1, _, hz3⟩ := h4 a ha
    rw [hz1]
    exact le_of_lt hz3

end Hospivus
